import Mathlib

/-!
Verification of the VideoMaster capture device glue (libavdevice/videomaster):
a shallow embedding of the audio/video property resolvers, the per-frame slot
lifecycle, the audio deinterleaver and the timestamp normalizer, together with
proofs of the specified properties.
-/

namespace VideoMaster

/-! ### Error codes (errno values and the AVERROR convention) -/

def EAGAIN : Int := 11

def EINVAL : Int := 22

def ENOMEM : Int := 12

/-- Errno code for input/output errors. -/
def E_IO : Int := 5

/-- AVERROR(e) negates an errno value, following the FFmpeg convention. -/
def AVERROR (e : Int) : Int := -e

/-! ### Driver status codes and handle_vhd_status -/

/-- VHD_ERRORCODE as far as the glue code distinguishes it: success, the
timeout code, or any other failure code (carried as a payload). -/
inductive VHD_ERRORCODE where
  | noerror
  | timeout
  | other (code : Nat)
deriving DecidableEq

/-- handle_vhd_status: maps a driver status to 0 on success, AVERROR(EAGAIN)
on VHDERR_TIMEOUT, and AVERROR(EIO) on any other failure (the logging calls
it performs are irrelevant to the returned value). -/
def handle_vhd_status (s : VHD_ERRORCODE) : Int :=
  match s with
  | .noerror => 0
  | .timeout => AVERROR EAGAIN
  | .other _ => AVERROR E_IO

/-- handle_av_error simply propagates the AVERROR code it is given
(its other arguments only control logging). -/
def handle_av_error (av_error : Int) : Int := av_error

/-! ### Audio info-frame and AES status word decoding (CTA-861 tables) -/

/-- VHD_DV_AUDIO_INFOFRAME_CODING_TYPE as used by the code: PCM,
REF_STREAM_HEADER, or any other coding type code. -/
inductive CodingType where
  | pcm
  | refStreamHeader
  | other (code : Nat)
deriving DecidableEq

/-- The SampleSize field of the audio info-frame. -/
inductive InfoframeSampleSize where
  | bits16
  | bits20
  | bits24
  | refStreamHeader
  | other (code : Nat)
deriving DecidableEq

/-- The SamplingFrequency field of the audio info-frame (8 enumerated codes:
7 direct rates plus the REF_STREAM_HEADER escape). -/
inductive InfoframeSamplingFreq where
  | f32000
  | f44100
  | f48000
  | f88200
  | f96000
  | f176400
  | f192000
  | refStreamHeader
  | other (code : Nat)
deriving DecidableEq

/-- The ChannelCount field of the audio info-frame. -/
inductive InfoframeChannelCount where
  | c2
  | c3
  | c4
  | c5
  | c6
  | c7
  | c8
  | refStreamHeader
  | other (code : Nat)
deriving DecidableEq

/-- The LinearPCM field of the AES status word. -/
inductive AesLinearPCM where
  | linearPCM
  | other (code : Nat)
deriving DecidableEq

/-- The SamplingFrequency field of the AES status word.  The constant named
VHD_DV_AUDIO_AES_STS_SAMPLING_FREQ_176000HZ is modelled by `f176000hz`;
the source maps it to 176400 Hz. -/
inductive AesSamplingFreq where
  | f32000hz
  | f44100hz
  | f48000hz
  | f88200hz
  | f96000hz
  | f176000hz
  | f192000hz
  | other (code : Nat)
deriving DecidableEq

/-- The MaxWordLengthSize field of the AES status word. -/
inductive AesMaxWordLength where
  | w20
  | w24
  | other (code : Nat)
deriving DecidableEq

/-- The fields of VHD_DV_AUDIO_INFOFRAME read by the resolvers. -/
structure VHD_DV_AUDIO_INFOFRAME where
  CodingType : CodingType
  ChannelCount : InfoframeChannelCount
  SampleSize : InfoframeSampleSize
  SamplingFrequency : InfoframeSamplingFreq
deriving DecidableEq

/-- The fields of VHD_DV_AUDIO_AES_STS read by the resolvers. -/
structure VHD_DV_AUDIO_AES_STS where
  LinearPCM : AesLinearPCM
  SamplingFrequency : AesSamplingFreq
  MaxWordLengthSize : AesMaxWordLength
  ChannelNb : Nat
deriving DecidableEq

/-- get_sample_size_from_audio_infoframe_and_aes_status: decodes the sample
size in bits from the info-frame SampleSize field, falling back to the AES
status word MaxWordLengthSize field on REF_STREAM_HEADER; unmapped codes give
AVERROR(EINVAL) (in C: a nonzero return code with the out-parameter left
untouched). -/
def get_sample_size_from_audio_infoframe_and_aes_status
    (audio_info_frame : VHD_DV_AUDIO_INFOFRAME) (aes_status : VHD_DV_AUDIO_AES_STS) :
    Except Int Nat :=
  match audio_info_frame.SampleSize with
  | .bits16 => .ok 16
  | .bits20 => .ok 20
  | .bits24 => .ok 24
  | .refStreamHeader =>
    match aes_status.MaxWordLengthSize with
    | .w20 => .ok 20
    | .w24 => .ok 24
    | .other _ => .error (AVERROR EINVAL)
  | .other _ => .error (AVERROR EINVAL)

/-- get_sample_rate_from_audio_infoframe_and_aes_status: decodes the sample
rate in Hz from the info-frame SamplingFrequency field, falling back to the
AES status word table on REF_STREAM_HEADER; note that the AES code named
176000HZ is mapped to 176400.  Unmapped codes give AVERROR(EINVAL). -/
def get_sample_rate_from_audio_infoframe_and_aes_status
    (audio_info_frame : VHD_DV_AUDIO_INFOFRAME) (aes_status : VHD_DV_AUDIO_AES_STS) :
    Except Int Nat :=
  match audio_info_frame.SamplingFrequency with
  | .f32000 => .ok 32000
  | .f44100 => .ok 44100
  | .f48000 => .ok 48000
  | .f88200 => .ok 88200
  | .f96000 => .ok 96000
  | .f176400 => .ok 176400
  | .f192000 => .ok 192000
  | .refStreamHeader =>
    match aes_status.SamplingFrequency with
    | .f32000hz => .ok 32000
    | .f44100hz => .ok 44100
    | .f48000hz => .ok 48000
    | .f88200hz => .ok 88200
    | .f96000hz => .ok 96000
    | .f176000hz => .ok 176400
    | .f192000hz => .ok 192000
    | .other _ => .error (AVERROR EINVAL)
  | .other _ => .error (AVERROR EINVAL)

/-- get_nb_channels_from_audio_infoframe_and_aes_status: decodes the channel
count from the info-frame ChannelCount field (codes for 2..8 map directly),
deferring to the AES status word ChannelNb field on REF_STREAM_HEADER;
unmapped codes give AVERROR(EINVAL). -/
def get_nb_channels_from_audio_infoframe_and_aes_status
    (audio_info_frame : VHD_DV_AUDIO_INFOFRAME) (aes_status : VHD_DV_AUDIO_AES_STS) :
    Except Int Nat :=
  match audio_info_frame.ChannelCount with
  | .c2 => .ok 2
  | .c3 => .ok 3
  | .c4 => .ok 4
  | .c5 => .ok 5
  | .c6 => .ok 6
  | .c7 => .ok 7
  | .c8 => .ok 8
  | .refStreamHeader => .ok aes_status.ChannelNb
  | .other _ => .error (AVERROR EINVAL)

/-- The codec identifiers involved in the audio resolver. -/
inductive AVCodecID where
  | AV_CODEC_ID_NONE
  | AV_CODEC_ID_PCM_S16LE
  | AV_CODEC_ID_PCM_S24LE
deriving DecidableEq

/-- get_codec_from_audio_infoframe_and_aes_status: for a PCM coding type (or
a REF_STREAM_HEADER coding type whose AES status word indicates linear PCM),
maps sample size 16 to PCM_S16LE and sizes 24 and 20 to PCM_S24LE (20-bit is
widened to 24-bit); any other coding type, or a non-linear-PCM status in the
fallback case, is AVERROR(EINVAL).  In C the inner sample-size call has its
return code ignored and its out-parameter initialised to 0, so a failed
sample-size decode leaves sample_size = 0, which then falls into the
AVERROR(EINVAL) branch. -/
def get_codec_from_audio_infoframe_and_aes_status
    (audio_info_frame : VHD_DV_AUDIO_INFOFRAME) (aes_status : VHD_DV_AUDIO_AES_STS) :
    Except Int AVCodecID :=
  match audio_info_frame.CodingType with
  | .pcm =>
    let sample_size : Nat :=
      match get_sample_size_from_audio_infoframe_and_aes_status audio_info_frame aes_status with
      | .ok v => v
      | .error _ => 0
    if sample_size = 16 then .ok .AV_CODEC_ID_PCM_S16LE
    else if sample_size = 24 then .ok .AV_CODEC_ID_PCM_S24LE
    else if sample_size = 20 then .ok .AV_CODEC_ID_PCM_S24LE
    else .error (AVERROR EINVAL)
  | .refStreamHeader =>
    match aes_status.LinearPCM with
    | .linearPCM =>
      let sample_size : Nat :=
        match get_sample_size_from_audio_infoframe_and_aes_status audio_info_frame aes_status with
        | .ok v => v
        | .error _ => 0
      if sample_size = 16 then .ok .AV_CODEC_ID_PCM_S16LE
      else if sample_size = 24 then .ok .AV_CODEC_ID_PCM_S24LE
      else if sample_size = 20 then .ok .AV_CODEC_ID_PCM_S24LE
      else .error (AVERROR EINVAL)
    | .other _ => .error (AVERROR EINVAL)
  | .other _ => .error (AVERROR EINVAL)

/-! ### Channel classification and per-frame data fetch -/

/-- The classified channel type (AVVideoMasterChannelType). -/
inductive ChannelType where
  | hdmi
  | sdi
  | asisdi
  | unknown
deriving DecidableEq

/-- VHD_DV_AUDIO_TYPE as far as the glue distinguishes it: "no audio" or any
other (audio-present) type code. -/
inductive AudioType where
  | typeNone
  | typePresent (code : Nat)
deriving DecidableEq

/-- Driver outcomes for one ff_videomaster_get_data cycle. -/
structure GetDataEnv where
  /-- status of VHD_LockSlotHandle -/
  lock_status : VHD_ERRORCODE
  /-- status of VHD_GetSlotBuffer (video) -/
  video_status : VHD_ERRORCODE
  /-- status of VHD_GetSlotDvAudioInfo -/
  dv_audio_info_status : VHD_ERRORCODE
  /-- audio type reported by VHD_GetSlotDvAudioInfo -/
  audio_type : AudioType
  /-- LinearPCM field of the AES status reported by VHD_GetSlotDvAudioInfo -/
  linear_pcm : AesLinearPCM
  /-- status of the second (filling) VHD_SlotExtractDvPCMAudio call -/
  extract_pcm_status : VHD_ERRORCODE
  /-- status of VHD_SlotExtractAudio on the SDI path (its result is ignored) -/
  sdi_extract_status : VHD_ERRORCODE
deriving DecidableEq

/-- lock_slot: returns handle_vhd_status of VHD_LockSlotHandle. -/
def lock_slot (env : GetDataEnv) : Int :=
  handle_vhd_status env.lock_status

/-- get_video_buffer: returns handle_vhd_status of VHD_GetSlotBuffer. -/
def get_video_buffer (env : GetDataEnv) : Int :=
  handle_vhd_status env.video_status

/-- get_audio_buffer: HDMI path reads the slot audio info (failure is
AVERROR(EIO)), then requires an audio type other than "none" and a linear-PCM
AES status (otherwise AVERROR(EIO)); the size-query extract call's status is
discarded and the filling extract call's failure is AVERROR(EIO).  The SDI
path extracts and deinterleaves, discarding both results, and returns 0. -/
def get_audio_buffer (channel_type : ChannelType) (env : GetDataEnv) : Int :=
  match channel_type with
  | .hdmi =>
    if handle_vhd_status env.dv_audio_info_status ≠ 0 then AVERROR E_IO
    else if env.audio_type ≠ .typeNone then
      if env.linear_pcm = .linearPCM then
        if handle_vhd_status env.extract_pcm_status ≠ 0 then AVERROR E_IO
        else 0
      else AVERROR E_IO
    else AVERROR E_IO
  | _ => 0

/-- ff_videomaster_get_data: locks the slot (timeout is returned as
AVERROR(EAGAIN), any other lock failure as AVERROR(EIO)), then extracts the
video and audio buffers, each failure mapping to AVERROR(EIO). -/
def ff_videomaster_get_data (has_video has_audio : Bool)
    (channel_type : ChannelType) (env : GetDataEnv) : Int :=
  let lock_slot_status := lock_slot env
  if lock_slot_status = AVERROR EAGAIN then AVERROR EAGAIN
  else if lock_slot_status ≠ 0 then AVERROR E_IO
  else if has_video = true ∧ get_video_buffer env ≠ 0 then AVERROR E_IO
  else if has_audio = true ∧ get_audio_buffer channel_type env ≠ 0 then AVERROR E_IO
  else 0

/-! ### Slot release and the audio info-frame probe -/

/-- The slot-related state of a VideoMasterContext: the slot handle field
(None models a NULL pointer). -/
structure SlotCtx where
  slot_handle : Option Nat
deriving DecidableEq

/-- unlock_slot: if a slot handle is held, unlock it through the driver and
clear the handle field, returning the mapped driver status; if no slot handle
is held, do nothing and return 0. -/
def unlock_slot (unlock_status : VHD_ERRORCODE) (ctx : SlotCtx) : Int × SlotCtx :=
  match ctx.slot_handle with
  | some _ => (handle_vhd_status unlock_status, { slot_handle := none })
  | none => (0, ctx)

/-- ff_videomaster_release_data: frees the audio buffer (not tracked here)
and always ends by calling unlock_slot, returning its result. -/
def ff_videomaster_release_data (unlock_status : VHD_ERRORCODE) (ctx : SlotCtx) :
    Int × SlotCtx :=
  unlock_slot unlock_status ctx

/-- Driver outcomes for one run of
get_audio_stream_properties_from_audio_infoframe. -/
structure AudioProbeEnv where
  /-- aggregated status of ff_videomaster_start_stream (each of its
  early-return paths yields a handle_vhd_status value) -/
  start_status : VHD_ERRORCODE
  /-- status of VHD_LockSlotHandle -/
  lock_status : VHD_ERRORCODE
  /-- status of VHD_GetSlotDvAudioInfo -/
  dv_status : VHD_ERRORCODE
  /-- status of VHD_UnlockSlotHandle -/
  unlock_status : VHD_ERRORCODE
  /-- status of VHD_StopStream -/
  stop_status : VHD_ERRORCODE
  /-- audio type reported by VHD_GetSlotDvAudioInfo -/
  audio_type : AudioType
  /-- info-frame reported by VHD_GetSlotDvAudioInfo -/
  audio_info_frame : VHD_DV_AUDIO_INFOFRAME
  /-- AES status word reported by VHD_GetSlotDvAudioInfo -/
  aes_status : VHD_DV_AUDIO_AES_STS
  /-- slot handle value produced by a successful lock -/
  slot : Nat
deriving DecidableEq

/-- Observable resource state after the audio info-frame probe. -/
structure ProbeState where
  /-- the context's slot handle field -/
  slot_handle : Option Nat
  /-- whether unlock_slot ran -/
  unlock_invoked : Bool
  /-- whether ff_videomaster_stop_stream ran -/
  stop_invoked : Bool
deriving DecidableEq

/-- get_audio_stream_properties_from_audio_infoframe, as a transition on the
slot/stream resource state: start the stream, lock a slot, read the combined
info-frame and AES status, decode sample size, rate, channel count and codec,
then unlock the slot and stop the stream.  Failures after a successful lock
go through GET_AND_CHECK_AND_STOP_STREAM, which calls
ff_videomaster_stop_stream and returns — without invoking unlock_slot.  The
"no audio" case also stops the stream and returns 0 without unlocking. -/
def get_audio_stream_properties_from_audio_infoframe (env : AudioProbeEnv) :
    Int × ProbeState :=
  let st0 : ProbeState := ⟨none, false, false⟩
  let start_rc := handle_vhd_status env.start_status
  if start_rc ≠ 0 then (start_rc, st0)
  else
    let lock_rc := handle_vhd_status env.lock_status
    if lock_rc ≠ 0 then (lock_rc, { st0 with stop_invoked := true })
    else
      let st1 : ProbeState := ⟨some env.slot, false, false⟩
      let dv_rc := handle_vhd_status env.dv_status
      if dv_rc ≠ 0 then (dv_rc, { st1 with stop_invoked := true })
      else if env.audio_type = .typeNone then (0, { st1 with stop_invoked := true })
      else
        match get_sample_size_from_audio_infoframe_and_aes_status
            env.audio_info_frame env.aes_status with
        | .error e => (e, { st1 with stop_invoked := true })
        | .ok _ =>
        match get_sample_rate_from_audio_infoframe_and_aes_status
            env.audio_info_frame env.aes_status with
        | .error e => (e, { st1 with stop_invoked := true })
        | .ok _ =>
        match get_nb_channels_from_audio_infoframe_and_aes_status
            env.audio_info_frame env.aes_status with
        | .error e => (e, { st1 with stop_invoked := true })
        | .ok _ =>
        match get_codec_from_audio_infoframe_and_aes_status
            env.audio_info_frame env.aes_status with
        | .error e => (e, { st1 with stop_invoked := true })
        | .ok _ =>
          let unlocked := unlock_slot env.unlock_status { slot_handle := st1.slot_handle }
          let st2 : ProbeState := ⟨unlocked.2.slot_handle, true, false⟩
          if unlocked.1 ≠ 0 then (unlocked.1, { st2 with stop_invoked := true })
          else (handle_vhd_status env.stop_status, { st2 with stop_invoked := true })

/-! ### Timestamp normalizer -/

/-- The timestamp sources selectable by configuration
(AVVideoMasterTimeStampType, including the LTC sources referenced by the
timestamp code). -/
inductive TimestampSource where
  | oscillator
  | system
  | hardware
  | ltc_on_board
  | ltc_companion_card
deriving DecidableEq

/-- The hour/minute/second/frame fields of VHD_TIMECODE. -/
structure VHD_TIMECODE where
  Hour : Nat
  Minute : Nat
  Second : Nat
  Frame : Nat
deriving DecidableEq

/-- The uint64 modulus. -/
def U64 : Nat := 2 ^ 64

/-- Driver inputs for one ff_videomaster_get_timestamp call. -/
structure TimestampEnv where
  /-- whether the context's slot handle is non-null -/
  slot_present : Bool
  /-- status of the driver read performed by the selected source -/
  driver_status : VHD_ERRORCODE
  /-- value written by VHD_GetSlotSystemTime (uint64) -/
  slot_system_time : Nat
  /-- raw tick count written by VHD_GetSlotHardwareTimestamp (uint64) -/
  hw_ticks : Nat
  /-- clock frequency written by VHD_GetSlotHardwareTimestamp -/
  clock_frequency : Nat
  /-- timecode written by VHD_GetSlotTimecode -/
  time_code : VHD_TIMECODE
deriving DecidableEq

/-- ff_videomaster_get_timestamp.  The hardware source converts the raw tick
count via (ticks × 1000000) / frequency in uint64 arithmetic.  The LTC
sources compute total_frames = (Hour×3600 + Minute×60 + Second) × frame_rate
+ Frame and the timestamp as total_frames × 1000000 / frame_rate; the C code
evaluates this with a float total_frames and a double product, which is exact
in the ranges of interest (total_frames < 2^24 and the product < 2^53), and
the final cast truncates toward zero, which Nat division reproduces.  Every
other source (oscillator and system clock alike) reads the slot system time
and subtracts the static base system_ts_base, capturing the base first when
it is still 0; the subtraction wraps modulo 2^64.  The second component of
the result is the updated system_ts_base. -/
def ff_videomaster_get_timestamp (timestamp_source : TimestampSource)
    (ltc_frame_rate : Nat) (env : TimestampEnv) (system_ts_base : Nat) :
    Except Int Nat × Nat :=
  if env.slot_present = false then (.error (AVERROR EINVAL), system_ts_base)
  else
    match timestamp_source with
    | .hardware =>
      if handle_vhd_status env.driver_status ≠ 0 then
        (.error (handle_vhd_status env.driver_status), system_ts_base)
      else
        (.ok (env.hw_ticks * 1000000 % U64 / env.clock_frequency),
          system_ts_base)
    | .ltc_on_board | .ltc_companion_card =>
      if handle_vhd_status env.driver_status ≠ 0 then
        (.error (handle_vhd_status env.driver_status), system_ts_base)
      else
        let total_frames :=
          (env.time_code.Hour * 3600 + env.time_code.Minute * 60 +
            env.time_code.Second) * ltc_frame_rate + env.time_code.Frame
        (.ok (total_frames * 1000000 / ltc_frame_rate), system_ts_base)
    | _ =>
      if handle_vhd_status env.driver_status ≠ 0 then
        (.error (handle_vhd_status env.driver_status), system_ts_base)
      else
        let base :=
          if system_ts_base = 0 then env.slot_system_time else system_ts_base
        (.ok ((env.slot_system_time + U64 - base % U64) % U64), base)

/-! ### Stream property resolvers (transient probe handle) and read_packet -/

/-- VHD_CLOCKDIV as used by the SDI video path. -/
inductive VHD_CLOCKDIV where
  | VHD_CLOCKDIV_1
  | VHD_CLOCKDIV_1001
  | other (code : Nat)
deriving DecidableEq

/-- Channel/stream properties read by the video resolver. -/
structure VideoPropsEnv where
  width : Nat
  height : Nat
  refresh_rate : Nat
  pixel_clock : Nat
  total_width : Nat
  total_height : Nat
  clock_divisor : VHD_CLOCKDIV
deriving DecidableEq

/-- Whether a transient (internally opened) signal-probe stream handle was
opened and whether it was closed before returning. -/
structure ProbeTrace where
  opened_internal : Bool
  closed_internal : Bool
deriving DecidableEq

/-- ff_videomaster_get_video_stream_properties: on an HDMI-like channel,
opens a transient stream handle when none is supplied, reads the geometry
and timing properties (all statuses discarded, no early returns), closes the
transient handle, and derives the frame-rate rational as
pixel_clock × 1000 over total_width × total_height; on other channels reads
the SDI standard table and selects denominator 1000 or 1001 from the clock
divisor, leaving the caller's value unchanged (after logging) on any other
divisor.  Returns (return code, probe-handle trace, frame-rate numerator,
frame-rate denominator). -/
def ff_videomaster_get_video_stream_properties (channel_type : ChannelType)
    (stream_handle_supplied : Bool) (env : VideoPropsEnv)
    (frame_rate_den_init : Nat) : Int × ProbeTrace × Nat × Nat :=
  match channel_type with
  | .hdmi =>
    let opened := !stream_handle_supplied
    (0, ⟨opened, opened⟩, env.pixel_clock * 1000,
      env.total_width * env.total_height)
  | _ =>
    let num := env.refresh_rate * 1000
    let den :=
      match env.clock_divisor with
      | .VHD_CLOCKDIV_1 => 1000
      | .VHD_CLOCKDIV_1001 => 1001
      | .other _ => frame_rate_den_init
    (0, ⟨false, false⟩, num, den)

/-- ff_videomaster_get_audio_stream_properties: on an HDMI-like channel,
opens a transient stream handle when none is supplied and runs the audio
info-frame probe through GET_AND_CHECK — whose failure path returns the
error immediately, skipping the close of the transient handle; on success
the transient handle is closed and 0 is returned.  Non-HDMI channels only
log a warning and return 0. -/
def ff_videomaster_get_audio_stream_properties (channel_type : ChannelType)
    (stream_handle_supplied : Bool) (env : AudioProbeEnv) : Int × ProbeTrace :=
  match channel_type with
  | .hdmi =>
    let opened := !stream_handle_supplied
    let av_error :=
      handle_av_error (get_audio_stream_properties_from_audio_infoframe env).1
    if av_error ≠ 0 then (av_error, ⟨opened, false⟩)
    else (0, ⟨opened, opened⟩)
  | _ => (0, ⟨false, false⟩)

/-- The context state that ff_videomaster_read_packet reads and writes. -/
structure DecState where
  return_video_next : Bool
  slot_handle : Option Nat
  pts : Int
  has_video : Bool
  has_audio : Bool
  channel_type : ChannelType
deriving DecidableEq

/-- One stream's packet as filled by read_packet. -/
inductive StreamKind where
  | video
  | audio
deriving DecidableEq

/-- The AVPacket fields set by read_packet. -/
structure AVPacketModel where
  stream : StreamKind
  pts : Int
  dts : Int
  duration : Int
deriving DecidableEq

/-- Driver/allocator outcomes for one read_packet call. -/
structure ReadPacketEnv where
  /-- driver outcomes of ff_videomaster_get_data -/
  data_env : GetDataEnv
  /-- slot handle value stored by a successful lock -/
  slot_value : Nat
  /-- the value left in the context pts field by ff_videomaster_get_timestamp
  (whose return code read_packet ignores) -/
  timestamp_value : Int
  /-- whether av_new_packet succeeds for the video packet -/
  video_alloc_ok : Bool
  /-- whether av_new_packet succeeds for the audio packet -/
  audio_alloc_ok : Bool
  /-- status of VHD_UnlockSlotHandle inside ff_videomaster_release_data -/
  unlock_status : VHD_ERRORCODE
deriving DecidableEq

/-- ff_videomaster_read_packet: when return_video_next is set, clear it,
fetch the frame data (any failure is AVERROR(EIO)), and emit the video
packet stamped with the context pts just written by get_timestamp; when it
is clear, set it, emit the audio packet stamped pts + 1 (monotonicity
workaround), and release the frame data (unlocking the slot). -/
def ff_videomaster_read_packet (st : DecState) (env : ReadPacketEnv) :
    Int × DecState × Option AVPacketModel :=
  if st.return_video_next = true then
    let st1 : DecState :=
      { st with
        return_video_next := false
        slot_handle :=
          if env.data_env.lock_status = .noerror then some env.slot_value
          else st.slot_handle }
    let data_rc :=
      ff_videomaster_get_data st.has_video st.has_audio st.channel_type
        env.data_env
    if data_rc ≠ 0 then (AVERROR E_IO, st1, none)
    else if st.has_video = true then
      if env.video_alloc_ok = false then (AVERROR ENOMEM, st1, none)
      else
        (0, { st1 with pts := env.timestamp_value },
          some ⟨.video, env.timestamp_value, env.timestamp_value, 1⟩)
    else (0, st1, none)
  else
    let st1 : DecState := { st with return_video_next := true }
    if st.has_audio = true then
      if env.audio_alloc_ok = false then (AVERROR ENOMEM, st1, none)
      else
        let pkt : AVPacketModel := ⟨.audio, st.pts + 1, st.pts + 1, 1⟩
        let rel := ff_videomaster_release_data env.unlock_status
          ⟨st1.slot_handle⟩
        let st2 : DecState := { st1 with slot_handle := rel.2.slot_handle }
        if rel.1 ≠ 0 then (AVERROR E_IO, st2, some pkt)
        else (0, st2, some pkt)
    else
      let rel := ff_videomaster_release_data env.unlock_status
        ⟨st1.slot_handle⟩
      let st2 : DecState := { st1 with slot_handle := rel.2.slot_handle }
      if rel.1 ≠ 0 then (AVERROR E_IO, st2, none)
      else (0, st2, none)

/-! ### Audio deinterleaver -/

/-- Byte-addressed memory, modelling the destination buffer. -/
abbrev Mem : Type := Nat → Nat

/-- The av_mallocz-initialised destination: all zero bytes. -/
def zeroMem : Mem := fun _ => 0

/-- Store one byte. -/
def writeByte (m : Mem) (addr v : Nat) : Mem :=
  fun a => if a = addr then v else m a

/-- memcpy of n bytes from src (a byte list read at src_offset) to dst_ptr. -/
def memcpyBytes (m : Mem) (dst_ptr : Nat) (src : List Nat)
    (src_offset n : Nat) : Mem :=
  (List.range n).foldl
    (fun acc k => writeByte acc (dst_ptr + k) (src.getD (src_offset + k) 0)) m

/-- VHD_AUDIOMODE: each channel pair is tagged MONO or STEREO. -/
inductive VHD_AUDIOMODE where
  | VHD_AM_MONO
  | VHD_AM_STEREO
deriving DecidableEq

/-- One VHD_AUDIOCHANNEL as read by the deinterleaver: its mode tag, its
buffer pointer (none models NULL) and its declared byte length. -/
structure VHD_AUDIOCHANNEL where
  Mode : VHD_AUDIOMODE
  pData : Option (List Nat)
  DataSize : Nat
deriving DecidableEq

/-- A zero-initialised channel entry (NULL buffer, size 0; the mode value 0
is taken to be MONO — with a NULL buffer the mode only affects how far the
destination channel index advances, never any copy). -/
def defaultChannel : VHD_AUDIOCHANNEL := ⟨.VHD_AM_MONO, none, 0⟩

/-- One VHD_AUDIOGROUP: its channels. -/
structure VHD_AUDIOGROUP where
  pAudioChannels : List VHD_AUDIOCHANNEL
deriving DecidableEq

/-- VHD_AUDIOINFO: the bank of audio groups. -/
structure VHD_AUDIOINFO where
  pAudioGroups : List VHD_AUDIOGROUP
deriving DecidableEq

/-- Number of audio groups (VideoMaster SDK constant). -/
def VHD_NBOFGROUP : Nat := 4

/-- Number of channels per group (VideoMaster SDK constant). -/
def VHD_NBOFCHNPERGROUP : Nat := 4

/-- The first gathering loop of interleaved_audio_info_to_audio_buffer:
walk the groups in order and, within each group, the even channel indices
(one entry per channel pair), stopping after nb_channels entries; each entry
is the corresponding VHD_AUDIOCHANNEL (missing entries read as
zero-initialised). -/
def gather_channel_pairs (audio_info : VHD_AUDIOINFO) (nb_channels : Nat) :
    List VHD_AUDIOCHANNEL :=
  (((List.range VHD_NBOFGROUP).flatMap fun group =>
      (List.range (VHD_NBOFCHNPERGROUP / 2)).map fun even_channel_idx =>
        (group, even_channel_idx * 2)).take nb_channels).map fun gc =>
    ((audio_info.pAudioGroups.getD gc.1 ⟨[]⟩).pAudioChannels).getD gc.2
      defaultChannel

/-- samples_in_channel: DataSize / (2 × bytes_per_sample) for a STEREO pair,
DataSize / bytes_per_sample for a MONO pair. -/
def samples_in_channel (bytes_per_sample : Nat) (ch : VHD_AUDIOCHANNEL) : Nat :=
  match ch.Mode with
  | .VHD_AM_STEREO => ch.DataSize / (2 * bytes_per_sample)
  | .VHD_AM_MONO => ch.DataSize / bytes_per_sample

/-- nb_samples: the running maximum of samples_in_channel over the gathered
pairs, updated exactly as the C loop does. -/
def compute_nb_samples (bytes_per_sample : Nat)
    (pairs : List VHD_AUDIOCHANNEL) : Nat :=
  pairs.foldl
    (fun nb_samples ch =>
      if samples_in_channel bytes_per_sample ch > nb_samples then
        samples_in_channel bytes_per_sample ch
      else nb_samples) 0

/-- One guarded copy of the inner loop: src_ptr is set only when the source
pointer is non-null and src_offset + bytes_per_sample fits within the
declared size; only then are bytes_per_sample bytes copied. -/
def copy_guarded (dst : Mem) (dst_ptr : Nat) (src : Option (List Nat))
    (src_offset size bytes_per_sample : Nat) : Mem :=
  match src with
  | some s =>
    if src_offset + bytes_per_sample ≤ size then
      memcpyBytes dst dst_ptr s src_offset bytes_per_sample
    else dst
  | none => dst

/-- The inner channel walk of the interleaving loop, for one sample index:
starting at channel_index, each STEREO pair copies its left lane (source
offset sample_index×2×bytes_per_sample) to the current destination channel
and its right lane (one sample further) to the next, advancing by two; each
MONO pair copies one sample (source offset sample_index×bytes_per_sample)
and advances by one; the walk stops at nb_channels.  (The C loop reads the
gathered arrays, which hold zero-initialised entries past the gathered
pairs; such entries have a NULL buffer and copy nothing, so stopping at the
end of the list leaves the same memory.) -/
def walk_pairs (nb_channels bytes_per_sample sample_index : Nat) :
    List VHD_AUDIOCHANNEL → Nat → Mem → Mem
  | [], _, dst => dst
  | ch :: rest, channel_index, dst =>
    if channel_index < nb_channels then
      let dst_offset := sample_index * nb_channels * bytes_per_sample
      match ch.Mode with
      | .VHD_AM_STEREO =>
        let dst1 := copy_guarded dst
          (dst_offset + channel_index * bytes_per_sample) ch.pData
          (sample_index * 2 * bytes_per_sample) ch.DataSize bytes_per_sample
        if channel_index + 1 < nb_channels then
          let dst2 := copy_guarded dst1
            (dst_offset + (channel_index + 1) * bytes_per_sample) ch.pData
            ((sample_index * 2 + 1) * bytes_per_sample) ch.DataSize
            bytes_per_sample
          walk_pairs nb_channels bytes_per_sample sample_index rest
            (channel_index + 2) dst2
        else
          walk_pairs nb_channels bytes_per_sample sample_index rest
            (channel_index + 1) dst1
      | .VHD_AM_MONO =>
        let dst1 := copy_guarded dst
          (dst_offset + channel_index * bytes_per_sample) ch.pData
          (sample_index * bytes_per_sample) ch.DataSize bytes_per_sample
        walk_pairs nb_channels bytes_per_sample sample_index rest
          (channel_index + 1) dst1
    else dst

/-- The outer interleaving loop: one channel walk per sample index, over the
zero-initialised destination. -/
def interleave_samples (pairs : List VHD_AUDIOCHANNEL)
    (nb_channels bytes_per_sample nb_samples : Nat) : Mem :=
  (List.range nb_samples).foldl
    (fun dst sample_index =>
      walk_pairs nb_channels bytes_per_sample sample_index pairs 0 dst)
    zeroMem

/-- interleaved_audio_info_to_audio_buffer: gather the channel pairs,
compute nb_samples, allocate nb_samples × nb_channels × bytes_per_sample
zeroed bytes and interleave.  Returns (audio_buffer_size, buffer bytes). -/
def interleaved_audio_info_to_audio_buffer (audio_info : VHD_AUDIOINFO)
    (nb_channels bytes_per_sample : Nat) : Nat × Mem :=
  let pairs := gather_channel_pairs audio_info nb_channels
  let nb_samples := compute_nb_samples bytes_per_sample pairs
  (nb_samples * nb_channels * bytes_per_sample,
    interleave_samples pairs nb_channels bytes_per_sample nb_samples)

/-- Which lane of a pair a destination channel draws from. -/
inductive Lane where
  | left
  | right
  | mono
deriving DecidableEq

/-- The source byte offset read for a given lane at a given sample index. -/
def lane_src_offset (lane : Lane) (sample_index bytes_per_sample : Nat) : Nat :=
  match lane with
  | .left => sample_index * 2 * bytes_per_sample
  | .right => (sample_index * 2 + 1) * bytes_per_sample
  | .mono => sample_index * bytes_per_sample

/-- The destination-channel layout realised by the walk: starting at
channel_index, a STEREO pair occupies the current channel with its left lane
and (if still in range) the following channel with its right lane, advancing
by two; a MONO pair occupies one channel, advancing by one. -/
def channel_layout (nb_channels : Nat) :
    List VHD_AUDIOCHANNEL → Nat → List (Nat × VHD_AUDIOCHANNEL × Lane)
  | [], _ => []
  | ch :: rest, channel_index =>
    if channel_index < nb_channels then
      match ch.Mode with
      | .VHD_AM_STEREO =>
        if channel_index + 1 < nb_channels then
          (channel_index, ch, .left) :: (channel_index + 1, ch, .right) ::
            channel_layout nb_channels rest (channel_index + 2)
        else
          (channel_index, ch, .left) ::
            channel_layout nb_channels rest (channel_index + 1)
      | .VHD_AM_MONO =>
        (channel_index, ch, .mono) ::
          channel_layout nb_channels rest (channel_index + 1)
    else []

/-- A channel with its buffer truncated to its declared DataSize. -/
def truncate_channel (ch : VHD_AUDIOCHANNEL) : VHD_AUDIOCHANNEL :=
  ⟨ch.Mode, ch.pData.map fun s => s.take ch.DataSize, ch.DataSize⟩

/-- An audio bank with every channel buffer truncated to its declared
size. -/
def truncate_info (audio_info : VHD_AUDIOINFO) : VHD_AUDIOINFO :=
  ⟨audio_info.pAudioGroups.map fun g =>
    ⟨g.pAudioChannels.map truncate_channel⟩⟩

/-! ## Theorems -/

/-- C1: For every valid sample-size code (16, 20 or 24 bits, from the
info-frame field directly or from the status-word fallback), the codec
resolved by get_codec_from_audio_infoframe_and_aes_status is PCM_S16LE when
the sample size is 16 and PCM_S24LE when it is 24 or 20 (20-bit is widened up
to 24-bit, never down); any non-PCM coding type, or a non-linear-PCM status
word in the fallback case, yields AVERROR(EINVAL) instead of a codec. -/
theorem C1_codec_resolution (audio_info_frame : VHD_DV_AUDIO_INFOFRAME)
    (aes_status : VHD_DV_AUDIO_AES_STS) :
    (∀ s, get_sample_size_from_audio_infoframe_and_aes_status audio_info_frame aes_status =
        .ok s →
      (s = 16 ∨ s = 20 ∨ s = 24) ∧
      ((audio_info_frame.CodingType = .pcm ∨
        (audio_info_frame.CodingType = .refStreamHeader ∧
          aes_status.LinearPCM = .linearPCM)) →
        get_codec_from_audio_infoframe_and_aes_status audio_info_frame aes_status =
          .ok (if s = 16 then .AV_CODEC_ID_PCM_S16LE else .AV_CODEC_ID_PCM_S24LE))) ∧
    (∀ c, audio_info_frame.CodingType = .other c →
      get_codec_from_audio_infoframe_and_aes_status audio_info_frame aes_status =
        .error (AVERROR EINVAL)) ∧
    (∀ c, audio_info_frame.CodingType = .refStreamHeader →
      aes_status.LinearPCM = .other c →
      get_codec_from_audio_infoframe_and_aes_status audio_info_frame aes_status =
        .error (AVERROR EINVAL)) := by
  obtain ⟨ct, cc, ss, sf⟩ := audio_info_frame
  obtain ⟨lp, asf, mwl, chn⟩ := aes_status
  refine ⟨?_, ?_, ?_⟩
  · intro s hs
    cases ss <;> cases mwl <;>
      simp_all [get_sample_size_from_audio_infoframe_and_aes_status,
        get_codec_from_audio_infoframe_and_aes_status] <;>
      rintro (rfl | ⟨rfl, rfl⟩) <;> first | rfl | (cases hs; rfl)
  · intro c hc
    subst hc
    simp [get_codec_from_audio_infoframe_and_aes_status]
  · intro c hct hlp
    subst hct
    subst hlp
    simp [get_codec_from_audio_infoframe_and_aes_status]

/-- C1 witness: a concrete 20-bit PCM info-frame resolves to the 24-bit
codec. -/
theorem C1_codec_resolution_witness :
    get_codec_from_audio_infoframe_and_aes_status
      ⟨.pcm, .c2, .bits20, .f48000⟩ ⟨.linearPCM, .f48000hz, .w24, 2⟩ =
      .ok .AV_CODEC_ID_PCM_S24LE := by
  have h :=
    (C1_codec_resolution ⟨.pcm, .c2, .bits20, .f48000⟩
        ⟨.linearPCM, .f48000hz, .w24, 2⟩).1 20 (by rfl)
  simpa using h.2 (Or.inl rfl)

/-- C2: Each of the 8 enumerated info-frame sample-rate codes resolves
exactly (7 direct rates, plus REF_STREAM_HEADER deferring to the AES status
word table, where the code wired for 176.4 kHz — the constant named 176000HZ
— resolves to 176400, not 176000); any unmapped code in either table yields
AVERROR(EINVAL). -/
theorem C2_sample_rate_resolution :
    (∀ ct cc ss aes, get_sample_rate_from_audio_infoframe_and_aes_status
        ⟨ct, cc, ss, .f32000⟩ aes = .ok 32000) ∧
    (∀ ct cc ss aes, get_sample_rate_from_audio_infoframe_and_aes_status
        ⟨ct, cc, ss, .f44100⟩ aes = .ok 44100) ∧
    (∀ ct cc ss aes, get_sample_rate_from_audio_infoframe_and_aes_status
        ⟨ct, cc, ss, .f48000⟩ aes = .ok 48000) ∧
    (∀ ct cc ss aes, get_sample_rate_from_audio_infoframe_and_aes_status
        ⟨ct, cc, ss, .f88200⟩ aes = .ok 88200) ∧
    (∀ ct cc ss aes, get_sample_rate_from_audio_infoframe_and_aes_status
        ⟨ct, cc, ss, .f96000⟩ aes = .ok 96000) ∧
    (∀ ct cc ss aes, get_sample_rate_from_audio_infoframe_and_aes_status
        ⟨ct, cc, ss, .f176400⟩ aes = .ok 176400) ∧
    (∀ ct cc ss aes, get_sample_rate_from_audio_infoframe_and_aes_status
        ⟨ct, cc, ss, .f192000⟩ aes = .ok 192000) ∧
    (∀ ct cc ss lp mwl chn, get_sample_rate_from_audio_infoframe_and_aes_status
        ⟨ct, cc, ss, .refStreamHeader⟩ ⟨lp, .f32000hz, mwl, chn⟩ = .ok 32000) ∧
    (∀ ct cc ss lp mwl chn, get_sample_rate_from_audio_infoframe_and_aes_status
        ⟨ct, cc, ss, .refStreamHeader⟩ ⟨lp, .f44100hz, mwl, chn⟩ = .ok 44100) ∧
    (∀ ct cc ss lp mwl chn, get_sample_rate_from_audio_infoframe_and_aes_status
        ⟨ct, cc, ss, .refStreamHeader⟩ ⟨lp, .f48000hz, mwl, chn⟩ = .ok 48000) ∧
    (∀ ct cc ss lp mwl chn, get_sample_rate_from_audio_infoframe_and_aes_status
        ⟨ct, cc, ss, .refStreamHeader⟩ ⟨lp, .f88200hz, mwl, chn⟩ = .ok 88200) ∧
    (∀ ct cc ss lp mwl chn, get_sample_rate_from_audio_infoframe_and_aes_status
        ⟨ct, cc, ss, .refStreamHeader⟩ ⟨lp, .f96000hz, mwl, chn⟩ = .ok 96000) ∧
    (∀ ct cc ss lp mwl chn, get_sample_rate_from_audio_infoframe_and_aes_status
        ⟨ct, cc, ss, .refStreamHeader⟩ ⟨lp, .f176000hz, mwl, chn⟩ = .ok 176400) ∧
    (∀ ct cc ss lp mwl chn, get_sample_rate_from_audio_infoframe_and_aes_status
        ⟨ct, cc, ss, .refStreamHeader⟩ ⟨lp, .f192000hz, mwl, chn⟩ = .ok 192000) ∧
    (∀ ct cc ss aes n, get_sample_rate_from_audio_infoframe_and_aes_status
        ⟨ct, cc, ss, .other n⟩ aes = .error (AVERROR EINVAL)) ∧
    (∀ ct cc ss lp mwl chn m, get_sample_rate_from_audio_infoframe_and_aes_status
        ⟨ct, cc, ss, .refStreamHeader⟩ ⟨lp, .other m, mwl, chn⟩ =
        .error (AVERROR EINVAL)) := by
  refine ⟨?_, ?_, ?_, ?_, ?_, ?_, ?_, ?_, ?_, ?_, ?_, ?_, ?_, ?_, ?_, ?_⟩ <;>
    intros <;> rfl

/-- Helper: get_audio_buffer only ever returns 0 or AVERROR(EIO). -/
theorem get_audio_buffer_cases (ct : ChannelType) (env : GetDataEnv) :
    get_audio_buffer ct env = 0 ∨ get_audio_buffer ct env = AVERROR E_IO := by
  cases ct
  case hdmi =>
    simp only [get_audio_buffer]
    split
    · exact Or.inr rfl
    split
    · split
      · split
        · exact Or.inr rfl
        · exact Or.inl rfl
      · exact Or.inr rfl
    · exact Or.inr rfl
  all_goals exact Or.inl rfl

/-- C3: In the per-frame fetch, a timeout from the slot-lock call maps to
AVERROR(EAGAIN); every other non-success lock status maps to AVERROR(EIO);
the fetch returns one of 0, AVERROR(EAGAIN) or AVERROR(EIO); and EAGAIN is
produced only in the lock-timeout case. -/
theorem C3_lock_timeout_mapping (has_video has_audio : Bool) (ct : ChannelType)
    (env : GetDataEnv) :
    (env.lock_status = .timeout →
      ff_videomaster_get_data has_video has_audio ct env = AVERROR EAGAIN) ∧
    (∀ c, env.lock_status = .other c →
      ff_videomaster_get_data has_video has_audio ct env = AVERROR E_IO) ∧
    (ff_videomaster_get_data has_video has_audio ct env = 0 ∨
     ff_videomaster_get_data has_video has_audio ct env = AVERROR EAGAIN ∨
     ff_videomaster_get_data has_video has_audio ct env = AVERROR E_IO) ∧
    (ff_videomaster_get_data has_video has_audio ct env = AVERROR EAGAIN →
      env.lock_status = .timeout) := by
  refine ⟨?_, ?_, ?_, ?_⟩
  · intro h
    simp [ff_videomaster_get_data, lock_slot, h, handle_vhd_status]
  · intro c h
    simp [ff_videomaster_get_data, lock_slot, h, handle_vhd_status, AVERROR,
      EAGAIN, E_IO]
  · cases henv : env.lock_status with
    | noerror =>
      by_cases hv : has_video = true ∧ get_video_buffer env ≠ 0
      · right; right
        simp [ff_videomaster_get_data, lock_slot, henv, handle_vhd_status, hv,
          AVERROR, EAGAIN, E_IO]
      · by_cases ha : has_audio = true ∧ get_audio_buffer ct env ≠ 0
        · right; right
          simp [ff_videomaster_get_data, lock_slot, henv, handle_vhd_status,
            hv, ha, AVERROR, EAGAIN, E_IO]
        · left
          simp [ff_videomaster_get_data, lock_slot, henv, handle_vhd_status,
            hv, ha, AVERROR, EAGAIN, E_IO]
    | timeout =>
      right; left
      simp [ff_videomaster_get_data, lock_slot, henv, handle_vhd_status]
    | other c =>
      right; right
      simp [ff_videomaster_get_data, lock_slot, henv, handle_vhd_status,
        AVERROR, EAGAIN, E_IO]
  · intro h
    cases henv : env.lock_status with
    | noerror =>
      exfalso
      by_cases hv : has_video = true ∧ get_video_buffer env ≠ 0
      · simp [ff_videomaster_get_data, lock_slot, henv, handle_vhd_status, hv,
          AVERROR, EAGAIN, E_IO] at h
      · by_cases ha : has_audio = true ∧ get_audio_buffer ct env ≠ 0
        · simp [ff_videomaster_get_data, lock_slot, henv, handle_vhd_status,
            hv, ha, AVERROR, EAGAIN, E_IO] at h
        · simp [ff_videomaster_get_data, lock_slot, henv, handle_vhd_status,
            hv, ha, AVERROR, EAGAIN, E_IO] at h
    | timeout => rfl
    | other c =>
      exfalso
      simp [ff_videomaster_get_data, lock_slot, henv, handle_vhd_status,
        AVERROR, EAGAIN, E_IO] at h

/-- C3 witness: a concrete fetch whose slot lock times out yields
AVERROR(EAGAIN). -/
theorem C3_lock_timeout_mapping_witness :
    ff_videomaster_get_data true true .hdmi
      ⟨.timeout, .noerror, .noerror, .typePresent 1, .linearPCM, .noerror,
        .noerror⟩ = AVERROR EAGAIN :=
  (C3_lock_timeout_mapping true true .hdmi
    ⟨.timeout, .noerror, .noerror, .typePresent 1, .linearPCM, .noerror,
      .noerror⟩).1 rfl

/-- C4 counterexample: with a successful start and lock but a failing
VHD_GetSlotDvAudioInfo, the probe returns AVERROR(EIO) with the stream
stopped, yet unlock_slot was never invoked and the slot handle is still set —
refuting the claim that the release always runs during cleanup on every
failed-extraction path after a successful lock. -/
theorem C4_counterexample :
    get_audio_stream_properties_from_audio_infoframe
      ⟨.noerror, .noerror, .other 1, .noerror, .noerror, .typePresent 1,
        ⟨.pcm, .c2, .bits16, .f48000⟩, ⟨.linearPCM, .f48000hz, .w24, 2⟩, 42⟩ =
    (AVERROR E_IO, ⟨some 42, false, true⟩) := by
  rfl

/-- C4 (amended): slot release is idempotent — releasing with no slot handle
held is a no-op returning success, a second release in a row always returns
success leaving the state unchanged, and the per-frame cleanup
(ff_videomaster_release_data) always invokes the release, ending with no slot
held.  However, in the audio info-frame probe, the failure paths after a
successful slot lock (failing slot-info read, or failing metadata decode) and
the no-audio path stop the stream without invoking unlock_slot, leaving the
slot handle set; only the full success path unlocks the slot. -/
theorem C4_release_idempotent_probe_leaves_slot (env : AudioProbeEnv) :
    (∀ s ctx, SlotCtx.slot_handle ctx = none → unlock_slot s ctx = (0, ctx)) ∧
    (∀ s1 s2 ctx,
      unlock_slot s2 (unlock_slot s1 ctx).2 = (0, (unlock_slot s1 ctx).2)) ∧
    (∀ s ctx, ff_videomaster_release_data s ctx = unlock_slot s ctx ∧
      SlotCtx.slot_handle (ff_videomaster_release_data s ctx).2 = none) ∧
    (handle_vhd_status env.start_status = 0 →
      handle_vhd_status env.lock_status = 0 →
      handle_vhd_status env.dv_status ≠ 0 →
      (get_audio_stream_properties_from_audio_infoframe env).2 =
        ⟨some env.slot, false, true⟩) ∧
    (handle_vhd_status env.start_status = 0 →
      handle_vhd_status env.lock_status = 0 →
      handle_vhd_status env.dv_status = 0 →
      env.audio_type ≠ .typeNone →
      get_codec_from_audio_infoframe_and_aes_status env.audio_info_frame
        env.aes_status = .error (AVERROR EINVAL) →
      (get_audio_stream_properties_from_audio_infoframe env).2 =
        ⟨some env.slot, false, true⟩) ∧
    (handle_vhd_status env.start_status = 0 →
      handle_vhd_status env.lock_status = 0 →
      handle_vhd_status env.dv_status = 0 →
      env.audio_type = .typeNone →
      (get_audio_stream_properties_from_audio_infoframe env).2 =
        ⟨some env.slot, false, true⟩) ∧
    (∀ a b c d, handle_vhd_status env.start_status = 0 →
      handle_vhd_status env.lock_status = 0 →
      handle_vhd_status env.dv_status = 0 →
      env.audio_type ≠ .typeNone →
      get_sample_size_from_audio_infoframe_and_aes_status env.audio_info_frame
        env.aes_status = .ok a →
      get_sample_rate_from_audio_infoframe_and_aes_status env.audio_info_frame
        env.aes_status = .ok b →
      get_nb_channels_from_audio_infoframe_and_aes_status env.audio_info_frame
        env.aes_status = .ok c →
      get_codec_from_audio_infoframe_and_aes_status env.audio_info_frame
        env.aes_status = .ok d →
      ProbeState.unlock_invoked
          (get_audio_stream_properties_from_audio_infoframe env).2 = true ∧
      ProbeState.slot_handle
          (get_audio_stream_properties_from_audio_infoframe env).2 = none) := by
  refine ⟨?_, ?_, ?_, ?_, ?_, ?_, ?_⟩
  · intro s ctx h
    obtain ⟨sh⟩ := ctx
    cases sh with
    | none => rfl
    | some v => simp at h
  · intro s1 s2 ctx
    obtain ⟨sh⟩ := ctx
    cases sh <;> simp [unlock_slot]
  · intro s ctx
    refine ⟨rfl, ?_⟩
    obtain ⟨sh⟩ := ctx
    cases sh <;> simp [ff_videomaster_release_data, unlock_slot]
  · intro h1 h2 h3
    simp [get_audio_stream_properties_from_audio_infoframe, h1, h2, h3]
  · intro h1 h2 h3 h4 h5
    rcases hss : get_sample_size_from_audio_infoframe_and_aes_status
        env.audio_info_frame env.aes_status with e | a
    · simp [get_audio_stream_properties_from_audio_infoframe, h1, h2, h3, h4,
        h5, hss]
    · rcases hsr : get_sample_rate_from_audio_infoframe_and_aes_status
          env.audio_info_frame env.aes_status with e | b
      · simp [get_audio_stream_properties_from_audio_infoframe, h1, h2, h3,
          h4, h5, hss, hsr]
      · rcases hnc : get_nb_channels_from_audio_infoframe_and_aes_status
            env.audio_info_frame env.aes_status with e | c
        · simp [get_audio_stream_properties_from_audio_infoframe, h1, h2, h3,
            h4, h5, hss, hsr, hnc]
        · simp [get_audio_stream_properties_from_audio_infoframe, h1, h2, h3,
            h4, h5, hss, hsr, hnc]
  · intro h1 h2 h3 h4
    simp [get_audio_stream_properties_from_audio_infoframe, h1, h2, h3, h4]
  · intro a b c d h1 h2 h3 h4 hss hsr hnc hcc
    simp only [get_audio_stream_properties_from_audio_infoframe, h1, h2, h3,
      h4, hss, hsr, hnc, hcc, unlock_slot, ite_not, if_true, if_false]
    split <;> exact ⟨rfl, rfl⟩

/-- C4 witness: concrete applications of the idempotence clause and of the
failing-slot-info clause. -/
theorem C4_release_idempotent_probe_leaves_slot_witness :
    unlock_slot VHD_ERRORCODE.noerror ⟨none⟩ = (0, ⟨none⟩) ∧
    (get_audio_stream_properties_from_audio_infoframe
      ⟨.noerror, .noerror, .other 1, .noerror, .noerror, .typePresent 1,
        ⟨.pcm, .c2, .bits16, .f48000⟩, ⟨.linearPCM, .f48000hz, .w24, 2⟩,
        42⟩).2 = ⟨some 42, false, true⟩ ∧
    ProbeState.unlock_invoked
      (get_audio_stream_properties_from_audio_infoframe
        ⟨.noerror, .noerror, .noerror, .noerror, .noerror, .typePresent 1,
          ⟨.pcm, .c2, .bits16, .f48000⟩, ⟨.linearPCM, .f48000hz, .w24, 2⟩,
          42⟩).2 = true := by
  refine ⟨?_, ?_, ?_⟩
  · exact (C4_release_idempotent_probe_leaves_slot
      ⟨.noerror, .noerror, .other 1, .noerror, .noerror, .typePresent 1,
        ⟨.pcm, .c2, .bits16, .f48000⟩, ⟨.linearPCM, .f48000hz, .w24, 2⟩,
        42⟩).1 .noerror ⟨none⟩ rfl
  · exact (C4_release_idempotent_probe_leaves_slot
      ⟨.noerror, .noerror, .other 1, .noerror, .noerror, .typePresent 1,
        ⟨.pcm, .c2, .bits16, .f48000⟩, ⟨.linearPCM, .f48000hz, .w24, 2⟩,
        42⟩).2.2.2.1 rfl rfl (by decide)
  · exact ((C4_release_idempotent_probe_leaves_slot
      ⟨.noerror, .noerror, .noerror, .noerror, .noerror, .typePresent 1,
        ⟨.pcm, .c2, .bits16, .f48000⟩, ⟨.linearPCM, .f48000hz, .w24, 2⟩,
        42⟩).2.2.2.2.2.2 16 48000 2 .AV_CODEC_ID_PCM_S16LE rfl rfl rfl
      (by decide) rfl rfl rfl rfl).1

/-- C7 counterexample: with a fresh base, a free-running-oscillator reading
of raw value 7 is exposed as 0, not 7 — the oscillator source goes through
the same rebasing branch as the system clock; moreover, when the first
system-clock raw reading is 0 the base sentinel is not consumed, so a second
reading of 5 is also exposed as 0 rather than raw2 − raw1 = 5. -/
theorem C7_counterexample :
    (ff_videomaster_get_timestamp .oscillator 30
        ⟨true, .noerror, 7, 0, 0, ⟨0, 0, 0, 0⟩⟩ 0).1 ≠ Except.ok 7 ∧
    (ff_videomaster_get_timestamp .oscillator 30
        ⟨true, .noerror, 7, 0, 0, ⟨0, 0, 0, 0⟩⟩ 0).1 = .ok 0 ∧
    (ff_videomaster_get_timestamp .system 30
        ⟨true, .noerror, 5, 0, 0, ⟨0, 0, 0, 0⟩⟩
        (ff_videomaster_get_timestamp .system 30
            ⟨true, .noerror, 0, 0, 0, ⟨0, 0, 0, 0⟩⟩ 0).2).1 = .ok 0 := by
  refine ⟨?_, rfl, rfl⟩
  intro h
  have h0 : (ff_videomaster_get_timestamp .oscillator 30
      ⟨true, .noerror, 7, 0, 0, ⟨0, 0, 0, 0⟩⟩ 0).1 = .ok 0 := rfl
  rw [h0] at h
  exact absurd (Except.ok.inj h) (by decide)

/-- C7 (amended): both the system-clock and the free-running-oscillator
sources read the slot system time and are normalized by subtracting the
shared static base, captured at the first reading while the base sentinel is
still 0; the first exposed timestamp of a session is 0 and, provided the
first raw reading is nonzero, the second equals raw2 − raw1; the hardware
and LTC sources never touch the base. -/
theorem C7_system_and_oscillator_rebased (src : TimestampSource)
    (hsrc : src = .oscillator ∨ src = .system) (rate : Nat)
    (env1 env2 : TimestampEnv)
    (hp1 : env1.slot_present = true) (hs1 : env1.driver_status = .noerror)
    (hp2 : env2.slot_present = true) (hs2 : env2.driver_status = .noerror)
    (hlt1 : env1.slot_system_time < U64)
    (hnz : env1.slot_system_time ≠ 0)
    (hle : env1.slot_system_time ≤ env2.slot_system_time)
    (hlt2 : env2.slot_system_time < U64) :
    (ff_videomaster_get_timestamp src rate env1 0).1 = .ok 0 ∧
    (ff_videomaster_get_timestamp src rate env1 0).2 =
      env1.slot_system_time ∧
    (ff_videomaster_get_timestamp src rate env2
        (ff_videomaster_get_timestamp src rate env1 0).2).1 =
      .ok (env2.slot_system_time - env1.slot_system_time) ∧
    (∀ hwsrc henv base,
      hwsrc = TimestampSource.hardware ∨ hwsrc = .ltc_on_board ∨
        hwsrc = .ltc_companion_card →
      (ff_videomaster_get_timestamp hwsrc rate henv base).2 = base) := by
  have hmod1 : env1.slot_system_time % U64 = env1.slot_system_time :=
    Nat.mod_eq_of_lt hlt1
  have key : ∀ s, s = TimestampSource.oscillator ∨ s = .system →
      ff_videomaster_get_timestamp s rate env1 0 =
        (.ok ((env1.slot_system_time + U64 - env1.slot_system_time % U64) %
            U64), env1.slot_system_time) ∧
      ff_videomaster_get_timestamp s rate env2 env1.slot_system_time =
        (.ok ((env2.slot_system_time + U64 - env1.slot_system_time % U64) %
            U64), env1.slot_system_time) := by
    rintro s (rfl | rfl) <;>
      exact ⟨by simp [ff_videomaster_get_timestamp, hp1, hs1,
          handle_vhd_status],
        by simp [ff_videomaster_get_timestamp, hp2, hs2, handle_vhd_status,
          hnz]⟩
  obtain ⟨k1, k2⟩ := key src hsrc
  have v1 : (env1.slot_system_time + U64 - env1.slot_system_time % U64) %
      U64 = 0 := by
    rw [hmod1, Nat.add_sub_cancel_left, Nat.mod_self]
  have v2 : (env2.slot_system_time + U64 - env1.slot_system_time % U64) %
      U64 = env2.slot_system_time - env1.slot_system_time := by
    rw [hmod1]
    have harith : env2.slot_system_time + U64 - env1.slot_system_time =
        env2.slot_system_time - env1.slot_system_time + U64 := by omega
    rw [harith, Nat.add_mod_right]
    exact Nat.mod_eq_of_lt (by omega)
  refine ⟨?_, ?_, ?_, ?_⟩
  · rw [k1, v1]
  · rw [k1]
  · rw [k1]
    simp only
    rw [k2, v2]
  · rintro hwsrc henv base (rfl | rfl | rfl) <;>
      cases hps : henv.slot_present <;>
        simp [ff_videomaster_get_timestamp, hps] <;> split <;> rfl

/-- C7 witness: the rebasing theorem applied to oscillator readings 3 then
10, giving exposed timestamps 0 then 7. -/
theorem C7_system_and_oscillator_rebased_witness :
    (ff_videomaster_get_timestamp .oscillator 30
        ⟨true, .noerror, 3, 0, 0, ⟨0, 0, 0, 0⟩⟩ 0).1 = .ok 0 ∧
    (ff_videomaster_get_timestamp .oscillator 30
        ⟨true, .noerror, 10, 0, 0, ⟨0, 0, 0, 0⟩⟩
        (ff_videomaster_get_timestamp .oscillator 30
            ⟨true, .noerror, 3, 0, 0, ⟨0, 0, 0, 0⟩⟩ 0).2).1 = .ok 7 := by
  have h := C7_system_and_oscillator_rebased .oscillator (Or.inl rfl) 30
    ⟨true, .noerror, 3, 0, 0, ⟨0, 0, 0, 0⟩⟩
    ⟨true, .noerror, 10, 0, 0, ⟨0, 0, 0, 0⟩⟩ rfl rfl rfl rfl
    (by norm_num [U64]) (by norm_num) (by norm_num) (by norm_num [U64])
  exact ⟨h.1, h.2.2.1⟩

/-- C8: the hardware-clock source converts via (ticks × 1000000) ÷ frequency
— exactly when the division is even (e.g. 48000 ticks at 48 kHz give
1000000 µs) — and the LTC sources compute total_frames =
(hour×3600 + minute×60 + second) × frame_rate + frame and the timestamp
total_frames × 1000000 ÷ frame_rate, so 01:00:00:00 at 30 fps gives exactly
3600000000 µs. -/
theorem C8_hardware_and_ltc_conversion :
    (∀ ticks freq sst, ticks * 1000000 < U64 →
      (ff_videomaster_get_timestamp .hardware 30
          ⟨true, .noerror, sst, ticks, freq, ⟨0, 0, 0, 0⟩⟩ 0).1 =
        .ok (ticks * 1000000 / freq) ∧
      (freq ∣ ticks * 1000000 →
        ticks * 1000000 / freq * freq = ticks * 1000000)) ∧
    (ff_videomaster_get_timestamp .hardware 30
        ⟨true, .noerror, 0, 48000, 48000, ⟨0, 0, 0, 0⟩⟩ 0).1 =
      .ok 1000000 ∧
    (∀ src rate h m s f sst,
      src = TimestampSource.ltc_on_board ∨ src = .ltc_companion_card →
      (ff_videomaster_get_timestamp src rate
          ⟨true, .noerror, sst, 0, 0, ⟨h, m, s, f⟩⟩ 0).1 =
        .ok (((h * 3600 + m * 60 + s) * rate + f) * 1000000 / rate)) ∧
    (ff_videomaster_get_timestamp .ltc_on_board 30
        ⟨true, .noerror, 0, 0, 0, ⟨1, 0, 0, 0⟩⟩ 0).1 = .ok 3600000000 := by
  refine ⟨?_, rfl, ?_, rfl⟩
  · intro ticks freq sst hlt
    refine ⟨?_, fun hdvd => Nat.div_mul_cancel hdvd⟩
    simp [ff_videomaster_get_timestamp, handle_vhd_status,
      Nat.mod_eq_of_lt hlt]
  · rintro src rate h m s f sst (rfl | rfl) <;>
      simp [ff_videomaster_get_timestamp, handle_vhd_status]

/-- C8 witness: the hardware conversion theorem applied at 48000 ticks and a
48 kHz clock. -/
theorem C8_hardware_and_ltc_conversion_witness :
    (ff_videomaster_get_timestamp .hardware 30
        ⟨true, .noerror, 0, 48000, 48000, ⟨0, 0, 0, 0⟩⟩ 0).1 =
      .ok (48000 * 1000000 / 48000) :=
  ((C8_hardware_and_ltc_conversion).1 48000 48000 0 (by norm_num [U64])).1

/-- Helper: handle_vhd_status returns 0 exactly on the success status. -/
theorem handle_vhd_status_eq_zero (s : VHD_ERRORCODE) :
    handle_vhd_status s = 0 ↔ s = .noerror := by
  cases s <;> simp [handle_vhd_status, AVERROR, EAGAIN, E_IO]

/-- Helper: a successful fetch implies the slot lock succeeded. -/
theorem get_data_zero_lock (has_video has_audio : Bool) (ct : ChannelType)
    (env : GetDataEnv) (h : ff_videomaster_get_data has_video has_audio ct env = 0) :
    env.lock_status = .noerror := by
  cases henv : env.lock_status with
  | noerror => rfl
  | timeout =>
    exfalso
    simp [ff_videomaster_get_data, lock_slot, henv, handle_vhd_status,
      AVERROR, EAGAIN] at h
  | other c =>
    exfalso
    simp [ff_videomaster_get_data, lock_slot, henv, handle_vhd_status,
      AVERROR, EAGAIN, E_IO] at h

/-- C9 counterexample: on an HDMI channel with no caller-supplied stream
handle, a failing inner probe makes the audio property resolver return the
error with the internally opened transient handle still open (opened = true,
closed = false) — refuting the claim that the internally opened handle is
closed on every return path. -/
theorem C9_counterexample :
    ff_videomaster_get_audio_stream_properties .hdmi false
      ⟨.noerror, .noerror, .other 1, .noerror, .noerror, .typePresent 1,
        ⟨.pcm, .c2, .bits16, .f48000⟩, ⟨.linearPCM, .f48000hz, .w24, 2⟩, 42⟩ =
    (AVERROR E_IO, ⟨true, false⟩) := by
  rfl

/-- C9 (amended): the video property resolver closes its internally opened
transient probe handle before returning on every path; the audio property
resolver closes it whenever the inner info-frame probe succeeds, but on a
failing inner probe it returns the error without closing the internally
opened handle. -/
theorem C9_probe_handle_closure (ct : ChannelType) (supplied : Bool)
    (venv : VideoPropsEnv) (frame_rate_den_init : Nat) (aenv : AudioProbeEnv) :
    (ProbeTrace.closed_internal
        (ff_videomaster_get_video_stream_properties ct supplied venv
          frame_rate_den_init).2.1 =
      ProbeTrace.opened_internal
        (ff_videomaster_get_video_stream_properties ct supplied venv
          frame_rate_den_init).2.1) ∧
    ((get_audio_stream_properties_from_audio_infoframe aenv).1 = 0 →
      ProbeTrace.closed_internal
          (ff_videomaster_get_audio_stream_properties ct supplied aenv).2 =
        ProbeTrace.opened_internal
          (ff_videomaster_get_audio_stream_properties ct supplied aenv).2) ∧
    ((get_audio_stream_properties_from_audio_infoframe aenv).1 ≠ 0 →
      ct = .hdmi → supplied = false →
      (ff_videomaster_get_audio_stream_properties ct supplied aenv).2 =
        ⟨true, false⟩) := by
  refine ⟨?_, ?_, ?_⟩
  · cases ct <;> rfl
  · intro h
    cases ct <;>
      simp [ff_videomaster_get_audio_stream_properties, handle_av_error, h]
  · intro h hct hsup
    subst hct
    subst hsup
    simp [ff_videomaster_get_audio_stream_properties, handle_av_error, h]

/-- C9 witness: the closure theorem applied to a concrete successful probe
(internally opened handle closed) on an HDMI channel. -/
theorem C9_probe_handle_closure_witness :
    ProbeTrace.closed_internal
        (ff_videomaster_get_audio_stream_properties .hdmi false
          ⟨.noerror, .noerror, .noerror, .noerror, .noerror, .typePresent 1,
            ⟨.pcm, .c2, .bits16, .f48000⟩, ⟨.linearPCM, .f48000hz, .w24, 2⟩,
            42⟩).2 =
      ProbeTrace.opened_internal
        (ff_videomaster_get_audio_stream_properties .hdmi false
          ⟨.noerror, .noerror, .noerror, .noerror, .noerror, .typePresent 1,
            ⟨.pcm, .c2, .bits16, .f48000⟩, ⟨.linearPCM, .f48000hz, .w24, 2⟩,
            42⟩).2 :=
  (C9_probe_handle_closure .hdmi false
    ⟨0, 0, 0, 0, 0, 0, .VHD_CLOCKDIV_1⟩ 0
    ⟨.noerror, .noerror, .noerror, .noerror, .noerror, .typePresent 1,
      ⟨.pcm, .c2, .bits16, .f48000⟩, ⟨.linearPCM, .f48000hz, .w24, 2⟩,
      42⟩).2.1 rfl

/-- C10: a successful read_packet call made with return_video_next set locks
the slot and returns the video packet stamped with the freshly written pts,
flipping return_video_next off; the next call, when successful, returns the
matching audio packet with pts exactly the video packet's pts plus one,
releases the slot, and flips return_video_next back on — so a paired audio
packet's timestamp always exceeds its video packet's timestamp by exactly
one. -/
theorem C10_read_packet_alternation (st : DecState) (env1 env2 : ReadPacketEnv)
    (hv : st.has_video = true) (ha : st.has_audio = true)
    (hflag : st.return_video_next = true)
    (h1 : (ff_videomaster_read_packet st env1).1 = 0) :
    env1.data_env.lock_status = .noerror ∧
    DecState.slot_handle (ff_videomaster_read_packet st env1).2.1 =
      some env1.slot_value ∧
    DecState.return_video_next (ff_videomaster_read_packet st env1).2.1 =
      false ∧
    (ff_videomaster_read_packet st env1).2.2 =
      some ⟨.video, env1.timestamp_value, env1.timestamp_value, 1⟩ ∧
    ((ff_videomaster_read_packet
        (ff_videomaster_read_packet st env1).2.1 env2).1 = 0 →
      (ff_videomaster_read_packet
          (ff_videomaster_read_packet st env1).2.1 env2).2.2 =
        some ⟨.audio, env1.timestamp_value + 1, env1.timestamp_value + 1,
          1⟩ ∧
      DecState.return_video_next
          (ff_videomaster_read_packet
            (ff_videomaster_read_packet st env1).2.1 env2).2.1 = true ∧
      DecState.slot_handle
          (ff_videomaster_read_packet
            (ff_videomaster_read_packet st env1).2.1 env2).2.1 = none ∧
      (∀ vpkt apkt, (ff_videomaster_read_packet st env1).2.2 = some vpkt →
        (ff_videomaster_read_packet
            (ff_videomaster_read_packet st env1).2.1 env2).2.2 = some apkt →
        apkt.pts = vpkt.pts + 1)) := by
  have hdata : ff_videomaster_get_data st.has_video st.has_audio
      st.channel_type env1.data_env = 0 := by
    by_contra hne
    have hval : (ff_videomaster_read_packet st env1).1 = AVERROR E_IO := by
      simp [ff_videomaster_read_packet, hflag, hne]
    rw [h1] at hval
    exact absurd hval.symm (by simp [AVERROR, E_IO])
  have hlock := get_data_zero_lock _ _ _ _ hdata
  rw [hv] at hdata
  have halloc : env1.video_alloc_ok = true := by
    by_contra hne
    rw [Bool.not_eq_true] at hne
    have hval : (ff_videomaster_read_packet st env1).1 = AVERROR ENOMEM := by
      simp [ff_videomaster_read_packet, hflag, hdata, hv, hne]
    rw [h1] at hval
    exact absurd hval.symm (by simp [AVERROR, ENOMEM])
  have hfirst : ff_videomaster_read_packet st env1 =
      (0,
        { st with
          return_video_next := false
          slot_handle := some env1.slot_value
          pts := env1.timestamp_value },
        some ⟨.video, env1.timestamp_value, env1.timestamp_value, 1⟩) := by
    simp [ff_videomaster_read_packet, hflag, hdata, hv, halloc, hlock]
  refine ⟨hlock, by rw [hfirst], by rw [hfirst], by rw [hfirst], ?_⟩
  intro h2
  rw [hfirst] at h2 ⊢
  simp only at h2 ⊢
  have haalloc : env2.audio_alloc_ok = true := by
    by_contra hne
    rw [Bool.not_eq_true] at hne
    simp [ff_videomaster_read_packet, ha, hne] at h2
    exact absurd h2 (by simp [AVERROR, ENOMEM])
  have hrel : handle_vhd_status env2.unlock_status = 0 := by
    by_contra hne
    simp [ff_videomaster_read_packet, ha, haalloc,
      ff_videomaster_release_data, unlock_slot, hne] at h2
    exact absurd h2 (by simp [AVERROR, E_IO])
  have hsecond : ff_videomaster_read_packet
      { st with
        return_video_next := false
        slot_handle := some env1.slot_value
        pts := env1.timestamp_value } env2 =
      (0,
        { st with
          return_video_next := true
          slot_handle := none
          pts := env1.timestamp_value },
        some ⟨.audio, env1.timestamp_value + 1, env1.timestamp_value + 1,
          1⟩) := by
    simp [ff_videomaster_read_packet, ha, haalloc,
      ff_videomaster_release_data, unlock_slot, hrel]
  rw [hsecond]
  refine ⟨rfl, rfl, rfl, ?_⟩
  intro vpkt apkt hav hap
  have hv1 : vpkt = ⟨.video, env1.timestamp_value, env1.timestamp_value, 1⟩ :=
    (Option.some.inj hav).symm
  have ha1 : apkt =
      ⟨.audio, env1.timestamp_value + 1, env1.timestamp_value + 1, 1⟩ :=
    (Option.some.inj hap).symm
  rw [hv1, ha1]

/-- C10 witness: a concrete successful video/audio call pair, with the audio
pts one above the video pts. -/
theorem C10_read_packet_alternation_witness :
    (ff_videomaster_read_packet
      ⟨true, none, 0, true, true, .hdmi⟩
      ⟨⟨.noerror, .noerror, .noerror, .typePresent 1, .linearPCM, .noerror,
          .noerror⟩, 5, 100, true, true, .noerror⟩).2.2 =
      some ⟨.video, 100, 100, 1⟩ := by
  have h := C10_read_packet_alternation
    ⟨true, none, 0, true, true, .hdmi⟩
    ⟨⟨.noerror, .noerror, .noerror, .typePresent 1, .linearPCM, .noerror,
        .noerror⟩, 5, 100, true, true, .noerror⟩
    ⟨⟨.noerror, .noerror, .noerror, .typePresent 1, .linearPCM, .noerror,
        .noerror⟩, 5, 100, true, true, .noerror⟩
    rfl rfl rfl rfl
  exact h.2.2.2.1

/-! ### Deinterleaver lemma toolkit -/

/-- Reading after a memcpy: inside the written window the source byte, other
addresses unchanged. -/
theorem memcpyBytes_get (n : Nat) (m : Mem) (dst_ptr : Nat) (src : List Nat)
    (src_offset : Nat) (a : Nat) :
    memcpyBytes m dst_ptr src src_offset n a =
      if dst_ptr ≤ a ∧ a < dst_ptr + n then
        src.getD (src_offset + (a - dst_ptr)) 0
      else m a := by
  induction n with
  | zero =>
    rw [if_neg (by omega)]
    rfl
  | succ k ih =>
    have hstep : memcpyBytes m dst_ptr src src_offset (k + 1) =
        writeByte (memcpyBytes m dst_ptr src src_offset k) (dst_ptr + k)
          (src.getD (src_offset + k) 0) := by
      simp [memcpyBytes, List.range_succ]
    rw [hstep]
    by_cases hak : a = dst_ptr + k
    · subst hak
      have hw : writeByte (memcpyBytes m dst_ptr src src_offset k)
          (dst_ptr + k) (src.getD (src_offset + k) 0) (dst_ptr + k) =
          src.getD (src_offset + k) 0 := by
        simp [writeByte]
      rw [hw, if_pos ⟨by omega, by omega⟩]
      have harg : dst_ptr + k - dst_ptr = k := by omega
      rw [harg]
    · have hw : writeByte (memcpyBytes m dst_ptr src src_offset k) (dst_ptr + k)
          (src.getD (src_offset + k) 0) a =
          memcpyBytes m dst_ptr src src_offset k a := by
        simp [writeByte, hak]
      rw [hw, ih]
      by_cases h1 : dst_ptr ≤ a ∧ a < dst_ptr + k
      · rw [if_pos h1, if_pos ⟨h1.1, by omega⟩]
      · rw [if_neg h1, if_neg (by omega)]

/-- A guarded copy leaves addresses outside its destination window
unchanged. -/
theorem copy_guarded_out (dst : Mem) (p : Nat) (src : Option (List Nat))
    (so size bps a : Nat) (h : a < p ∨ p + bps ≤ a) :
    copy_guarded dst p src so size bps a = dst a := by
  cases src with
  | none => rfl
  | some s =>
    simp only [copy_guarded]
    split
    · rw [memcpyBytes_get, if_neg (by omega)]
    · rfl

/-- A guarded copy whose bound check passes places the source bytes. -/
theorem copy_guarded_hit (dst : Mem) (p : Nat) (s : List Nat)
    (so size bps k : Nat) (hk : k < bps) (hg : so + bps ≤ size) :
    copy_guarded dst p (some s) so size bps (p + k) = s.getD (so + k) 0 := by
  simp only [copy_guarded, if_pos hg]
  rw [memcpyBytes_get, if_pos ⟨by omega, by omega⟩]
  congr 2
  omega

/-- A guarded copy with a null source or a failing bound check is the
identity. -/
theorem copy_guarded_miss (dst : Mem) (p : Nat) (src : Option (List Nat))
    (so size bps : Nat) (h : src = none ∨ size < so + bps) :
    copy_guarded dst p src so size bps = dst := by
  cases src with
  | none => rfl
  | some s =>
    rcases h with h | h
    · exact absurd h (by simp)
    · simp only [copy_guarded]
      rw [if_neg (by omega)]

/-- A guarded copy reads the prior memory only at the address itself. -/
theorem copy_guarded_congr_at (dst1 dst2 : Mem) (p : Nat)
    (src : Option (List Nat)) (so size bps a : Nat) (h : dst1 a = dst2 a) :
    copy_guarded dst1 p src so size bps a =
      copy_guarded dst2 p src so size bps a := by
  cases src with
  | none => exact h
  | some s =>
    simp only [copy_guarded]
    split
    · rw [memcpyBytes_get, memcpyBytes_get]
      split
      · rfl
      · exact h
    · exact h

/-- Offsets inside a sample row stay below the row width. -/
theorem offset_lt_row (c nb k bps : Nat) (hc : c < nb) (hk : k < bps) :
    c * bps + k < nb * bps := by
  have h1 : (c + 1) * bps = c * bps + bps := by ring
  have h2 : (c + 1) * bps ≤ nb * bps := Nat.mul_le_mul_right _ hc
  omega

/-- Unfolding: the walk past the channel count stops. -/
theorem walk_pairs_stop (nb bps s ci : Nat) (ch : VHD_AUDIOCHANNEL)
    (rest : List VHD_AUDIOCHANNEL) (dst : Mem) (h : ¬ ci < nb) :
    walk_pairs nb bps s (ch :: rest) ci dst = dst := by
  simp [walk_pairs, h]

/-- Unfolding: a stereo pair with both destination channels in range. -/
theorem walk_pairs_stereo_full (nb bps s ci : Nat) (ch : VHD_AUDIOCHANNEL)
    (rest : List VHD_AUDIOCHANNEL) (dst : Mem) (hci : ci < nb)
    (hm : ch.Mode = .VHD_AM_STEREO) (h2 : ci + 1 < nb) :
    walk_pairs nb bps s (ch :: rest) ci dst =
      walk_pairs nb bps s rest (ci + 2)
        (copy_guarded
          (copy_guarded dst (s * nb * bps + ci * bps) ch.pData
            (s * 2 * bps) ch.DataSize bps)
          (s * nb * bps + (ci + 1) * bps) ch.pData
          ((s * 2 + 1) * bps) ch.DataSize bps) := by
  simp [walk_pairs, hci, hm, h2]

/-- Unfolding: a stereo pair whose right lane falls outside the channel
count. -/
theorem walk_pairs_stereo_cut (nb bps s ci : Nat) (ch : VHD_AUDIOCHANNEL)
    (rest : List VHD_AUDIOCHANNEL) (dst : Mem) (hci : ci < nb)
    (hm : ch.Mode = .VHD_AM_STEREO) (h2 : ¬ ci + 1 < nb) :
    walk_pairs nb bps s (ch :: rest) ci dst =
      walk_pairs nb bps s rest (ci + 1)
        (copy_guarded dst (s * nb * bps + ci * bps) ch.pData
          (s * 2 * bps) ch.DataSize bps) := by
  simp [walk_pairs, hci, hm, h2]

/-- Unfolding: a mono pair. -/
theorem walk_pairs_mono (nb bps s ci : Nat) (ch : VHD_AUDIOCHANNEL)
    (rest : List VHD_AUDIOCHANNEL) (dst : Mem) (hci : ci < nb)
    (hm : ch.Mode = .VHD_AM_MONO) :
    walk_pairs nb bps s (ch :: rest) ci dst =
      walk_pairs nb bps s rest (ci + 1)
        (copy_guarded dst (s * nb * bps + ci * bps) ch.pData
          (s * bps) ch.DataSize bps) := by
  simp [walk_pairs, hci, hm]

/-- Unfolding: the layout past the channel count is empty. -/
theorem channel_layout_stop (nb ci : Nat) (ch : VHD_AUDIOCHANNEL)
    (rest : List VHD_AUDIOCHANNEL) (h : ¬ ci < nb) :
    channel_layout nb (ch :: rest) ci = [] := by
  simp [channel_layout, h]

/-- Unfolding: the layout of a stereo pair with both channels in range. -/
theorem channel_layout_stereo_full (nb ci : Nat) (ch : VHD_AUDIOCHANNEL)
    (rest : List VHD_AUDIOCHANNEL) (hci : ci < nb)
    (hm : ch.Mode = .VHD_AM_STEREO) (h2 : ci + 1 < nb) :
    channel_layout nb (ch :: rest) ci =
      (ci, ch, .left) :: (ci + 1, ch, .right) ::
        channel_layout nb rest (ci + 2) := by
  simp [channel_layout, hci, hm, h2]

/-- Unfolding: the layout of a stereo pair whose right lane is cut off. -/
theorem channel_layout_stereo_cut (nb ci : Nat) (ch : VHD_AUDIOCHANNEL)
    (rest : List VHD_AUDIOCHANNEL) (hci : ci < nb)
    (hm : ch.Mode = .VHD_AM_STEREO) (h2 : ¬ ci + 1 < nb) :
    channel_layout nb (ch :: rest) ci =
      (ci, ch, .left) :: channel_layout nb rest (ci + 1) := by
  simp [channel_layout, hci, hm, h2]

/-- Unfolding: the layout of a mono pair. -/
theorem channel_layout_mono (nb ci : Nat) (ch : VHD_AUDIOCHANNEL)
    (rest : List VHD_AUDIOCHANNEL) (hci : ci < nb)
    (hm : ch.Mode = .VHD_AM_MONO) :
    channel_layout nb (ch :: rest) ci =
      (ci, ch, .mono) :: channel_layout nb rest (ci + 1) := by
  simp [channel_layout, hci, hm]

/-- Every layout entry sits at or after the starting channel index and below
the channel count. -/
theorem channel_layout_bounds (nb : Nat) (pairs : List VHD_AUDIOCHANNEL) :
    ∀ (ci c : Nat) (ch : VHD_AUDIOCHANNEL) (lane : Lane),
      (c, ch, lane) ∈ channel_layout nb pairs ci → ci ≤ c ∧ c < nb := by
  induction pairs with
  | nil =>
    intro ci c ch lane h
    simp [channel_layout] at h
  | cons p rest ih =>
    intro ci c ch lane h
    by_cases hci : ci < nb
    · cases hm : p.Mode with
      | VHD_AM_STEREO =>
        by_cases h2 : ci + 1 < nb
        · rw [channel_layout_stereo_full nb ci p rest hci hm h2] at h
          simp only [List.mem_cons, Prod.mk.injEq] at h
          rcases h with ⟨rfl, -, -⟩ | ⟨rfl, -, -⟩ | h
          · exact ⟨le_rfl, hci⟩
          · exact ⟨by omega, h2⟩
          · have := ih (ci + 2) c ch lane h
            omega
        · rw [channel_layout_stereo_cut nb ci p rest hci hm h2] at h
          simp only [List.mem_cons, Prod.mk.injEq] at h
          rcases h with ⟨rfl, -, -⟩ | h
          · exact ⟨le_rfl, hci⟩
          · have := ih (ci + 1) c ch lane h
            omega
      | VHD_AM_MONO =>
        rw [channel_layout_mono nb ci p rest hci hm] at h
        simp only [List.mem_cons, Prod.mk.injEq] at h
        rcases h with ⟨rfl, -, -⟩ | h
        · exact ⟨le_rfl, hci⟩
        · have := ih (ci + 1) c ch lane h
          omega
    · rw [channel_layout_stop nb ci p rest hci] at h
      simp at h

/-- The walk only writes inside the current sample's row, at or after its
starting channel. -/
theorem walk_pairs_untouched (nb bps s : Nat) (pairs : List VHD_AUDIOCHANNEL) :
    ∀ (ci : Nat) (dst : Mem) (a : Nat),
      a < s * nb * bps + ci * bps ∨ s * nb * bps + nb * bps ≤ a →
      walk_pairs nb bps s pairs ci dst a = dst a := by
  induction pairs with
  | nil => intro ci dst a h; rfl
  | cons ch rest ih =>
    intro ci dst a h
    have hrec : ∀ cj, ci ≤ cj →
        (a < s * nb * bps + cj * bps ∨ s * nb * bps + nb * bps ≤ a) := by
      intro cj hle
      rcases h with h | h
      · left
        have := Nat.mul_le_mul_right bps hle
        omega
      · right; exact h
    have hout : ∀ c, ci ≤ c → c < nb →
        a < s * nb * bps + c * bps ∨ s * nb * bps + c * bps + bps ≤ a := by
      intro c h1 h2
      rcases h with h | h
      · left
        have := Nat.mul_le_mul_right bps h1
        omega
      · right
        have h3 : (c + 1) * bps ≤ nb * bps := Nat.mul_le_mul_right bps h2
        have h4 : (c + 1) * bps = c * bps + bps := by ring
        omega
    by_cases hci : ci < nb
    · cases hm : ch.Mode with
      | VHD_AM_STEREO =>
        by_cases h2 : ci + 1 < nb
        · rw [walk_pairs_stereo_full nb bps s ci ch rest dst hci hm h2,
            ih (ci + 2) _ a (hrec (ci + 2) (by omega)),
            copy_guarded_out _ _ _ _ _ _ _ (hout (ci + 1) (by omega) h2),
            copy_guarded_out _ _ _ _ _ _ _ (hout ci le_rfl hci)]
        · rw [walk_pairs_stereo_cut nb bps s ci ch rest dst hci hm h2,
            ih (ci + 1) _ a (hrec (ci + 1) (by omega)),
            copy_guarded_out _ _ _ _ _ _ _ (hout ci le_rfl hci)]
      | VHD_AM_MONO =>
        rw [walk_pairs_mono nb bps s ci ch rest dst hci hm,
          ih (ci + 1) _ a (hrec (ci + 1) (by omega)),
          copy_guarded_out _ _ _ _ _ _ _ (hout ci le_rfl hci)]
    · rw [walk_pairs_stop nb bps s ci ch rest dst hci]

/-- The walk reads the prior memory only at the address itself. -/
theorem walk_pairs_congr_at (nb bps s : Nat) (pairs : List VHD_AUDIOCHANNEL) :
    ∀ (ci : Nat) (m1 m2 : Mem) (a : Nat), m1 a = m2 a →
      walk_pairs nb bps s pairs ci m1 a = walk_pairs nb bps s pairs ci m2 a := by
  induction pairs with
  | nil => intro ci m1 m2 a h; exact h
  | cons ch rest ih =>
    intro ci m1 m2 a h
    by_cases hci : ci < nb
    · cases hm : ch.Mode with
      | VHD_AM_STEREO =>
        by_cases h2 : ci + 1 < nb
        · rw [walk_pairs_stereo_full nb bps s ci ch rest m1 hci hm h2,
            walk_pairs_stereo_full nb bps s ci ch rest m2 hci hm h2]
          exact ih (ci + 2) _ _ a
            (copy_guarded_congr_at _ _ _ _ _ _ _ _
              (copy_guarded_congr_at _ _ _ _ _ _ _ _ h))
        · rw [walk_pairs_stereo_cut nb bps s ci ch rest m1 hci hm h2,
            walk_pairs_stereo_cut nb bps s ci ch rest m2 hci hm h2]
          exact ih (ci + 1) _ _ a (copy_guarded_congr_at _ _ _ _ _ _ _ _ h)
      | VHD_AM_MONO =>
        rw [walk_pairs_mono nb bps s ci ch rest m1 hci hm,
          walk_pairs_mono nb bps s ci ch rest m2 hci hm]
        exact ih (ci + 1) _ _ a (copy_guarded_congr_at _ _ _ _ _ _ _ _ h)
    · rw [walk_pairs_stop nb bps s ci ch rest m1 hci,
        walk_pairs_stop nb bps s ci ch rest m2 hci]
      exact h

/-- Reading a layout position after the walk, when the source guard passes:
the source byte of that channel's lane. -/
theorem walk_pairs_read_hit (nb bps s : Nat) (pairs : List VHD_AUDIOCHANNEL) :
    ∀ (ci : Nat) (m : Mem) (c : Nat) (ch : VHD_AUDIOCHANNEL) (lane : Lane)
      (buf : List Nat) (k : Nat),
      (c, ch, lane) ∈ channel_layout nb pairs ci → k < bps →
      ch.pData = some buf → lane_src_offset lane s bps + bps ≤ ch.DataSize →
      walk_pairs nb bps s pairs ci m (s * nb * bps + c * bps + k) =
        buf.getD (lane_src_offset lane s bps + k) 0 := by
  induction pairs with
  | nil =>
    intro ci m c ch lane buf k h
    simp [channel_layout] at h
  | cons p rest ih =>
    intro ci m c ch lane buf k h hk hbuf hsz
    by_cases hci : ci < nb
    · cases hm : p.Mode with
      | VHD_AM_STEREO =>
        by_cases h2 : ci + 1 < nb
        · rw [channel_layout_stereo_full nb ci p rest hci hm h2] at h
          rw [walk_pairs_stereo_full nb bps s ci p rest m hci hm h2]
          simp only [List.mem_cons, Prod.mk.injEq] at h
          have e1 : (ci + 1) * bps = ci * bps + bps := by ring
          have e2 : (ci + 2) * bps = ci * bps + bps + bps := by ring
          rcases h with ⟨hc, hcp, hlane⟩ | ⟨hc, hcp, hlane⟩ | h
          · rw [hcp] at hbuf hsz
            rw [hlane] at hsz ⊢
            rw [hc]
            simp only [lane_src_offset] at hsz ⊢
            rw [walk_pairs_untouched nb bps s rest (ci + 2) _ _
                (Or.inl (by omega)),
              copy_guarded_out _ _ _ _ _ _ _ (Or.inl (by omega)), hbuf,
              copy_guarded_hit m _ buf _ _ _ k hk hsz]
          · rw [hcp] at hbuf hsz
            rw [hlane] at hsz ⊢
            rw [hc]
            simp only [lane_src_offset] at hsz ⊢
            rw [walk_pairs_untouched nb bps s rest (ci + 2) _ _
                (Or.inl (by omega)), hbuf,
              copy_guarded_hit _ _ buf _ _ _ k hk hsz]
          · exact ih (ci + 2) _ c ch lane buf k h hk hbuf hsz
        · rw [channel_layout_stereo_cut nb ci p rest hci hm h2] at h
          rw [walk_pairs_stereo_cut nb bps s ci p rest m hci hm h2]
          simp only [List.mem_cons, Prod.mk.injEq] at h
          have e1 : (ci + 1) * bps = ci * bps + bps := by ring
          rcases h with ⟨hc, hcp, hlane⟩ | h
          · rw [hcp] at hbuf hsz
            rw [hlane] at hsz ⊢
            rw [hc]
            simp only [lane_src_offset] at hsz ⊢
            rw [walk_pairs_untouched nb bps s rest (ci + 1) _ _
                (Or.inl (by omega)), hbuf,
              copy_guarded_hit m _ buf _ _ _ k hk hsz]
          · exact ih (ci + 1) _ c ch lane buf k h hk hbuf hsz
      | VHD_AM_MONO =>
        rw [channel_layout_mono nb ci p rest hci hm] at h
        rw [walk_pairs_mono nb bps s ci p rest m hci hm]
        simp only [List.mem_cons, Prod.mk.injEq] at h
        have e1 : (ci + 1) * bps = ci * bps + bps := by ring
        rcases h with ⟨hc, hcp, hlane⟩ | h
        · rw [hcp] at hbuf hsz
          rw [hlane] at hsz ⊢
          rw [hc]
          simp only [lane_src_offset] at hsz ⊢
          rw [walk_pairs_untouched nb bps s rest (ci + 1) _ _
              (Or.inl (by omega)), hbuf,
            copy_guarded_hit m _ buf _ _ _ k hk hsz]
        · exact ih (ci + 1) _ c ch lane buf k h hk hbuf hsz
    · rw [channel_layout_stop nb ci p rest hci] at h
      simp at h

/-- Reading a layout position after the walk, when the source guard fails
(null buffer or out-of-range source offset): the prior memory, i.e. the
destination region is not written. -/
theorem walk_pairs_read_miss (nb bps s : Nat) (pairs : List VHD_AUDIOCHANNEL) :
    ∀ (ci : Nat) (m : Mem) (c : Nat) (ch : VHD_AUDIOCHANNEL) (lane : Lane)
      (k : Nat),
      (c, ch, lane) ∈ channel_layout nb pairs ci → k < bps →
      (ch.pData = none ∨ ch.DataSize < lane_src_offset lane s bps + bps) →
      walk_pairs nb bps s pairs ci m (s * nb * bps + c * bps + k) =
        m (s * nb * bps + c * bps + k) := by
  induction pairs with
  | nil =>
    intro ci m c ch lane k h
    simp [channel_layout] at h
  | cons p rest ih =>
    intro ci m c ch lane k h hk hmiss
    by_cases hci : ci < nb
    · cases hm : p.Mode with
      | VHD_AM_STEREO =>
        by_cases h2 : ci + 1 < nb
        · rw [channel_layout_stereo_full nb ci p rest hci hm h2] at h
          rw [walk_pairs_stereo_full nb bps s ci p rest m hci hm h2]
          simp only [List.mem_cons, Prod.mk.injEq] at h
          have e1 : (ci + 1) * bps = ci * bps + bps := by ring
          have e2 : (ci + 2) * bps = ci * bps + bps + bps := by ring
          rcases h with ⟨hc, hcp, hlane⟩ | ⟨hc, hcp, hlane⟩ | h
          · rw [hcp, hlane] at hmiss
            rw [hc]
            simp only [lane_src_offset] at hmiss
            rw [walk_pairs_untouched nb bps s rest (ci + 2) _ _
                (Or.inl (by omega)),
              copy_guarded_out _ _ _ _ _ _ _ (Or.inl (by omega)),
              copy_guarded_miss m _ p.pData _ _ _ hmiss]
          · rw [hcp, hlane] at hmiss
            rw [hc]
            simp only [lane_src_offset] at hmiss
            rw [walk_pairs_untouched nb bps s rest (ci + 2) _ _
                (Or.inl (by omega)),
              copy_guarded_miss _ _ p.pData _ _ _ hmiss,
              copy_guarded_out _ _ _ _ _ _ _ (Or.inr (by omega))]
          · have hb := channel_layout_bounds nb rest (ci + 2) c ch lane h
            have e3 : (ci + 2) * bps ≤ c * bps :=
              Nat.mul_le_mul_right bps hb.1
            rw [ih (ci + 2) _ c ch lane k h hk hmiss,
              copy_guarded_out _ _ _ _ _ _ _ (Or.inr (by omega)),
              copy_guarded_out _ _ _ _ _ _ _ (Or.inr (by omega))]
        · rw [channel_layout_stereo_cut nb ci p rest hci hm h2] at h
          rw [walk_pairs_stereo_cut nb bps s ci p rest m hci hm h2]
          simp only [List.mem_cons, Prod.mk.injEq] at h
          have e1 : (ci + 1) * bps = ci * bps + bps := by ring
          rcases h with ⟨hc, hcp, hlane⟩ | h
          · rw [hcp, hlane] at hmiss
            rw [hc]
            simp only [lane_src_offset] at hmiss
            rw [walk_pairs_untouched nb bps s rest (ci + 1) _ _
                (Or.inl (by omega)),
              copy_guarded_miss m _ p.pData _ _ _ hmiss]
          · have hb := channel_layout_bounds nb rest (ci + 1) c ch lane h
            have e3 : (ci + 1) * bps ≤ c * bps :=
              Nat.mul_le_mul_right bps hb.1
            rw [ih (ci + 1) _ c ch lane k h hk hmiss,
              copy_guarded_out _ _ _ _ _ _ _ (Or.inr (by omega))]
      | VHD_AM_MONO =>
        rw [channel_layout_mono nb ci p rest hci hm] at h
        rw [walk_pairs_mono nb bps s ci p rest m hci hm]
        simp only [List.mem_cons, Prod.mk.injEq] at h
        have e1 : (ci + 1) * bps = ci * bps + bps := by ring
        rcases h with ⟨hc, hcp, hlane⟩ | h
        · rw [hcp, hlane] at hmiss
          rw [hc]
          simp only [lane_src_offset] at hmiss
          rw [walk_pairs_untouched nb bps s rest (ci + 1) _ _
              (Or.inl (by omega)),
            copy_guarded_miss m _ p.pData _ _ _ hmiss]
        · have hb := channel_layout_bounds nb rest (ci + 1) c ch lane h
          have e3 : (ci + 1) * bps ≤ c * bps :=
            Nat.mul_le_mul_right bps hb.1
          rw [ih (ci + 1) _ c ch lane k h hk hmiss,
            copy_guarded_out _ _ _ _ _ _ _ (Or.inr (by omega))]
    · rw [channel_layout_stop nb ci p rest hci] at h
      simp at h

/-- Earlier sample rows end before later rows start. -/
theorem region_le (t u nb bps : Nat) (h : t < u) :
    t * nb * bps + nb * bps ≤ u * nb * bps := by
  have h1 : (t + 1) * nb * bps ≤ u * nb * bps :=
    Nat.mul_le_mul_right bps (Nat.mul_le_mul_right nb h)
  have h2 : (t + 1) * nb * bps = t * nb * bps + nb * bps := by ring
  omega

/-- A fold of walks leaves an address untouched when it lies in none of the
walked samples' rows. -/
theorem foldl_walk_untouched (nb bps : Nat) (pairs : List VHD_AUDIOCHANNEL) :
    ∀ (l : List Nat) (m : Mem) (a : Nat),
      (∀ t ∈ l, a < t * nb * bps ∨ t * nb * bps + nb * bps ≤ a) →
      l.foldl (fun dst si => walk_pairs nb bps si pairs 0 dst) m a = m a := by
  intro l
  induction l with
  | nil => intro m a h; rfl
  | cons t rest ih =>
    intro m a h
    rw [List.foldl_cons,
      ih (walk_pairs nb bps t pairs 0 m) a
        (fun u hu => h u (List.mem_cons_of_mem _ hu))]
    apply walk_pairs_untouched
    rcases h t (List.mem_cons_self t rest) with h | h
    · left
      have : (0 : Nat) * bps = 0 := Nat.zero_mul bps
      omega
    · right; exact h

/-- Reading an in-range address of sample row s from the interleaved output
equals reading it from that sample's walk alone over zeroed memory: the rows
are pairwise disjoint, earlier rows leave row s zeroed, and later rows do
not revisit it. -/
theorem interleave_samples_get (pairs : List VHD_AUDIOCHANNEL) (nb bps : Nat) :
    ∀ (N s c k : Nat), s < N → c < nb → k < bps →
      interleave_samples pairs nb bps N (s * nb * bps + c * bps + k) =
        walk_pairs nb bps s pairs 0 zeroMem (s * nb * bps + c * bps + k) := by
  intro N
  induction N with
  | zero => intro s c k hs; exact absurd hs (by omega)
  | succ M ih =>
    intro s c k hs hc hk
    have hrow : c * bps + k < nb * bps := offset_lt_row c nb k bps hc hk
    have hunf : interleave_samples pairs nb bps (M + 1) =
        walk_pairs nb bps M pairs 0 (interleave_samples pairs nb bps M) := by
      simp [interleave_samples, List.range_succ]
    rw [hunf]
    by_cases hsM : s = M
    · subst hsM
      have hbase : interleave_samples pairs nb bps s
          (s * nb * bps + c * bps + k) =
          zeroMem (s * nb * bps + c * bps + k) := by
        apply foldl_walk_untouched
        intro t ht
        right
        have htlt : t < s := List.mem_range.mp ht
        have := region_le t s nb bps htlt
        omega
      exact walk_pairs_congr_at nb bps s pairs 0 _ _ _ hbase
    · have hsltM : s < M := by omega
      have hoff : s * nb * bps + c * bps + k < M * nb * bps := by
        have := region_le s M nb bps hsltM
        omega
      rw [walk_pairs_untouched nb bps M pairs 0 _ _ ?_, ih s c k hsltM hc hk]
      left
      have : (0 : Nat) * bps = 0 := Nat.zero_mul bps
      omega

/-- The running-maximum fold computes an upper bound of its inputs that is
either the seed or attained by one of them. -/
theorem foldl_max_spec (f : VHD_AUDIOCHANNEL → Nat) :
    ∀ (l : List VHD_AUDIOCHANNEL) (acc : Nat),
      acc ≤ l.foldl (fun nb ch => if f ch > nb then f ch else nb) acc ∧
      (∀ p ∈ l, f p ≤ l.foldl (fun nb ch => if f ch > nb then f ch else nb) acc) ∧
      (l.foldl (fun nb ch => if f ch > nb then f ch else nb) acc = acc ∨
        ∃ p ∈ l, l.foldl (fun nb ch => if f ch > nb then f ch else nb) acc = f p) := by
  intro l
  induction l with
  | nil => intro acc; exact ⟨le_rfl, by simp, Or.inl rfl⟩
  | cons x xs ih =>
    intro acc
    rw [List.foldl_cons]
    obtain ⟨h1, h2, h3⟩ := ih (if f x > acc then f x else acc)
    refine ⟨?_, ?_, ?_⟩
    · refine le_trans ?_ h1
      split <;> omega
    · intro p hp
      rcases List.mem_cons.mp hp with heq | hp
      · subst heq
        refine le_trans ?_ h1
        split <;> omega
      · exact h2 p hp
    · rcases h3 with h3 | ⟨p, hp, hp2⟩
      · by_cases hfx : f x > acc
        · right
          exact ⟨x, List.mem_cons_self x xs, by rw [h3]; simp [hfx]⟩
        · left
          rw [h3]
          simp [hfx]
      · right
        exact ⟨p, List.mem_cons_of_mem _ hp, hp2⟩

/-- getD commutes with map, when the default is mapped too. -/
theorem list_getD_map {α β : Type} (f : α → β) :
    ∀ (l : List α) (i : Nat) (d : α),
      (l.map f).getD i (f d) = f (l.getD i d) := by
  intro l
  induction l with
  | nil => intro i d; rfl
  | cons x xs ih =>
    intro i d
    cases i with
    | zero => rfl
    | succ j => exact ih j d

/-- getD below the cut commutes with take. -/
theorem list_getD_take (l : List Nat) :
    ∀ (n i : Nat), i < n → (l.take n).getD i 0 = l.getD i 0 := by
  induction l with
  | nil => intro n i h; simp
  | cons x xs ih =>
    intro n i h
    cases n with
    | zero => omega
    | succ m =>
      cases i with
      | zero => rfl
      | succ j => simpa using ih m j (by omega)

/-- memcpy only reads the bytes of the copied window. -/
theorem memcpyBytes_congr (m : Mem) (d : Nat) (s1 s2 : List Nat) (so : Nat) :
    ∀ n, (∀ k, k < n → s1.getD (so + k) 0 = s2.getD (so + k) 0) →
      memcpyBytes m d s1 so n = memcpyBytes m d s2 so n := by
  intro n
  induction n with
  | zero => intro h; rfl
  | succ k ih =>
    intro h
    have e1 : memcpyBytes m d s1 so (k + 1) =
        writeByte (memcpyBytes m d s1 so k) (d + k) (s1.getD (so + k) 0) := by
      simp [memcpyBytes, List.range_succ]
    have e2 : memcpyBytes m d s2 so (k + 1) =
        writeByte (memcpyBytes m d s2 so k) (d + k) (s2.getD (so + k) 0) := by
      simp [memcpyBytes, List.range_succ]
    rw [e1, e2, ih (fun j hj => h j (by omega)), h k (by omega)]

/-- A guarded copy is unchanged by truncating its source to the declared
size: the guard ensures every read offset is below the size. -/
theorem copy_guarded_truncate (dst : Mem) (p : Nat) (pd : Option (List Nat))
    (so sz bps : Nat) :
    copy_guarded dst p (pd.map fun s => s.take sz) so sz bps =
      copy_guarded dst p pd so sz bps := by
  cases pd with
  | none => rfl
  | some s =>
    show copy_guarded dst p (some (s.take sz)) so sz bps =
      copy_guarded dst p (some s) so sz bps
    simp only [copy_guarded]
    split
    case isTrue hg =>
      exact memcpyBytes_congr dst p _ _ so bps
        (fun k hk => list_getD_take s sz (so + k) (by omega))
    case isFalse => rfl

/-- The walk is unchanged by truncating every channel buffer to its declared
size. -/
theorem walk_pairs_truncate (nb bps s : Nat) (pairs : List VHD_AUDIOCHANNEL) :
    ∀ (ci : Nat) (dst : Mem),
      walk_pairs nb bps s (pairs.map truncate_channel) ci dst =
        walk_pairs nb bps s pairs ci dst := by
  induction pairs with
  | nil => intro ci dst; rfl
  | cons ch rest ih =>
    intro ci dst
    rw [List.map_cons]
    by_cases hci : ci < nb
    · cases hm : ch.Mode with
      | VHD_AM_STEREO =>
        have hm2 : (truncate_channel ch).Mode = .VHD_AM_STEREO := hm
        by_cases h2 : ci + 1 < nb
        · rw [walk_pairs_stereo_full nb bps s ci (truncate_channel ch)
              (rest.map truncate_channel) dst hci hm2 h2,
            walk_pairs_stereo_full nb bps s ci ch rest dst hci hm h2, ih]
          simp only [truncate_channel]
          rw [copy_guarded_truncate, copy_guarded_truncate]
        · rw [walk_pairs_stereo_cut nb bps s ci (truncate_channel ch)
              (rest.map truncate_channel) dst hci hm2 h2,
            walk_pairs_stereo_cut nb bps s ci ch rest dst hci hm h2, ih]
          simp only [truncate_channel]
          rw [copy_guarded_truncate]
      | VHD_AM_MONO =>
        have hm2 : (truncate_channel ch).Mode = .VHD_AM_MONO := hm
        rw [walk_pairs_mono nb bps s ci (truncate_channel ch)
            (rest.map truncate_channel) dst hci hm2,
          walk_pairs_mono nb bps s ci ch rest dst hci hm, ih]
        simp only [truncate_channel]
        rw [copy_guarded_truncate]
    · rw [walk_pairs_stop nb bps s ci (truncate_channel ch)
          (rest.map truncate_channel) dst hci,
        walk_pairs_stop nb bps s ci ch rest dst hci]

/-- The interleaving loop is unchanged by truncating every channel buffer to
its declared size. -/
theorem interleave_samples_truncate (pairs : List VHD_AUDIOCHANNEL)
    (nb bps N : Nat) :
    interleave_samples (pairs.map truncate_channel) nb bps N =
      interleave_samples pairs nb bps N := by
  unfold interleave_samples
  congr 1
  funext dst si
  exact walk_pairs_truncate nb bps si pairs 0 dst

/-- Gathering commutes with truncating the bank. -/
theorem gather_channel_pairs_truncate (audio_info : VHD_AUDIOINFO) (nb : Nat) :
    gather_channel_pairs (truncate_info audio_info) nb =
      (gather_channel_pairs audio_info nb).map truncate_channel := by
  unfold gather_channel_pairs
  rw [List.map_map]
  congr 1
  funext gc
  show (((truncate_info audio_info).pAudioGroups).getD gc.1
        ⟨[]⟩).pAudioChannels.getD gc.2 defaultChannel =
    truncate_channel
      ((audio_info.pAudioGroups.getD gc.1 ⟨[]⟩).pAudioChannels.getD gc.2
        defaultChannel)
  have hg : ((truncate_info audio_info).pAudioGroups).getD gc.1 ⟨[]⟩ =
      (⟨((audio_info.pAudioGroups.getD gc.1 ⟨[]⟩).pAudioChannels).map
        truncate_channel⟩ : VHD_AUDIOGROUP) := by
    have h := list_getD_map
      (fun g : VHD_AUDIOGROUP =>
        (⟨g.pAudioChannels.map truncate_channel⟩ : VHD_AUDIOGROUP))
      audio_info.pAudioGroups gc.1 ⟨[]⟩
    exact h
  rw [hg]
  exact list_getD_map truncate_channel _ gc.2 defaultChannel

/-- nb_samples is unchanged by truncating every channel buffer: it only
depends on the modes and declared sizes. -/
theorem compute_nb_samples_truncate (bps : Nat)
    (pairs : List VHD_AUDIOCHANNEL) :
    compute_nb_samples bps (pairs.map truncate_channel) =
      compute_nb_samples bps pairs := by
  unfold compute_nb_samples
  rw [List.foldl_map]
  congr 1

/-- C5: the deinterleaver output is one buffer of N × nb_channels ×
bytes_per_sample bytes, N being the maximum per-pair sample count (byte
length over bytes-per-sample, halved for STEREO pairs); and at every
in-range sample index and layout channel (a STEREO pair feeding two adjacent
channels from its interleaved left lane at sample_index×2×bytes_per_sample
and right lane one sample later, a MONO pair feeding a single channel from
sample_index×bytes_per_sample and advancing by one), the output byte equals
the corresponding source byte whenever the source is present and the read
fits the declared size. -/
theorem C5_deinterleaver_layout (audio_info : VHD_AUDIOINFO)
    (nb_channels bytes_per_sample : Nat) :
    (interleaved_audio_info_to_audio_buffer audio_info nb_channels
        bytes_per_sample).1 =
      compute_nb_samples bytes_per_sample
          (gather_channel_pairs audio_info nb_channels) * nb_channels *
        bytes_per_sample ∧
    (∀ p ∈ gather_channel_pairs audio_info nb_channels,
      samples_in_channel bytes_per_sample p ≤
        compute_nb_samples bytes_per_sample
          (gather_channel_pairs audio_info nb_channels)) ∧
    (compute_nb_samples bytes_per_sample
        (gather_channel_pairs audio_info nb_channels) = 0 ∨
      ∃ p ∈ gather_channel_pairs audio_info nb_channels,
        compute_nb_samples bytes_per_sample
            (gather_channel_pairs audio_info nb_channels) =
          samples_in_channel bytes_per_sample p) ∧
    (∀ c ch lane buf i k,
      (c, ch, lane) ∈ channel_layout nb_channels
        (gather_channel_pairs audio_info nb_channels) 0 →
      i < compute_nb_samples bytes_per_sample
        (gather_channel_pairs audio_info nb_channels) →
      k < bytes_per_sample → ch.pData = some buf →
      lane_src_offset lane i bytes_per_sample + bytes_per_sample ≤
        ch.DataSize →
      (interleaved_audio_info_to_audio_buffer audio_info nb_channels
          bytes_per_sample).2
          (i * nb_channels * bytes_per_sample + c * bytes_per_sample + k) =
        buf.getD (lane_src_offset lane i bytes_per_sample + k) 0) := by
  obtain ⟨h1, h2, h3⟩ := foldl_max_spec (samples_in_channel bytes_per_sample)
    (gather_channel_pairs audio_info nb_channels) 0
  refine ⟨rfl, h2, h3, ?_⟩
  intro c ch lane buf i k hmem hi hk hbuf hsz
  have hc := (channel_layout_bounds nb_channels _ 0 c ch lane hmem).2
  show interleave_samples (gather_channel_pairs audio_info nb_channels)
      nb_channels bytes_per_sample
      (compute_nb_samples bytes_per_sample
        (gather_channel_pairs audio_info nb_channels))
      (i * nb_channels * bytes_per_sample + c * bytes_per_sample + k) =
    buf.getD (lane_src_offset lane i bytes_per_sample + k) 0
  rw [interleave_samples_get _ _ _ _ i c k hi hc hk]
  exact walk_pairs_read_hit nb_channels bytes_per_sample i _ 0 zeroMem c ch
    lane buf k hmem hk hbuf hsz

/-- C5 witness: one stereo pair of four 1-byte samples into 2 channels; the
output byte at sample 1, channel 0 is the pair's left-lane byte 30. -/
theorem C5_deinterleaver_layout_witness :
    (interleaved_audio_info_to_audio_buffer
        ⟨[⟨[⟨.VHD_AM_STEREO, some [10, 20, 30, 40], 4⟩]⟩]⟩ 2 1).2
        (1 * 2 * 1 + 0 * 1 + 0) =
      List.getD [10, 20, 30, 40] (lane_src_offset .left 1 1 + 0) 0 :=
  (C5_deinterleaver_layout
      ⟨[⟨[⟨.VHD_AM_STEREO, some [10, 20, 30, 40], 4⟩]⟩]⟩ 2 1).2.2.2
    0 ⟨.VHD_AM_STEREO, some [10, 20, 30, 40], 4⟩ .left [10, 20, 30, 40] 1 0
    (by decide) (by decide) (by decide) rfl (by decide)

/-- C6: every source read of the deinterleaver is bounds-checked against the
pair's declared byte length — whenever the source pointer is null or the
computed source offset plus bytes_per_sample exceeds that length, the
destination region keeps its zero initialisation; and the whole output is
unchanged when every source buffer is truncated to its declared length, so
no source buffer is ever read past its declared end. -/
theorem C6_deinterleaver_bounds_safety (audio_info : VHD_AUDIOINFO)
    (nb_channels bytes_per_sample : Nat) :
    (∀ c ch lane i k,
      (c, ch, lane) ∈ channel_layout nb_channels
        (gather_channel_pairs audio_info nb_channels) 0 →
      i < compute_nb_samples bytes_per_sample
        (gather_channel_pairs audio_info nb_channels) →
      k < bytes_per_sample →
      (ch.pData = none ∨
        ch.DataSize <
          lane_src_offset lane i bytes_per_sample + bytes_per_sample) →
      (interleaved_audio_info_to_audio_buffer audio_info nb_channels
          bytes_per_sample).2
          (i * nb_channels * bytes_per_sample + c * bytes_per_sample + k) =
        0) ∧
    interleaved_audio_info_to_audio_buffer (truncate_info audio_info)
        nb_channels bytes_per_sample =
      interleaved_audio_info_to_audio_buffer audio_info nb_channels
        bytes_per_sample := by
  constructor
  · intro c ch lane i k hmem hi hk hmiss
    have hc := (channel_layout_bounds nb_channels _ 0 c ch lane hmem).2
    show interleave_samples (gather_channel_pairs audio_info nb_channels)
        nb_channels bytes_per_sample
        (compute_nb_samples bytes_per_sample
          (gather_channel_pairs audio_info nb_channels))
        (i * nb_channels * bytes_per_sample + c * bytes_per_sample + k) = 0
    rw [interleave_samples_get _ _ _ _ i c k hi hc hk,
      walk_pairs_read_miss nb_channels bytes_per_sample i _ 0 zeroMem c ch
        lane k hmem hk hmiss]
    rfl
  · simp only [interleaved_audio_info_to_audio_buffer]
    rw [gather_channel_pairs_truncate, compute_nb_samples_truncate,
      interleave_samples_truncate]

/-- C6 witness: a mono pair with a null buffer leaves its destination byte
zero. -/
theorem C6_deinterleaver_bounds_safety_witness :
    (interleaved_audio_info_to_audio_buffer
        ⟨[⟨[⟨.VHD_AM_MONO, none, 4⟩]⟩]⟩ 2 1).2 (0 * 2 * 1 + 0 * 1 + 0) =
      0 :=
  (C6_deinterleaver_bounds_safety ⟨[⟨[⟨.VHD_AM_MONO, none, 4⟩]⟩]⟩ 2 1).1
    0 ⟨.VHD_AM_MONO, none, 4⟩ .mono 0 0 (by decide) (by decide) (by decide)
    (Or.inl rfl)

end VideoMaster
